import Mathlib

/-!
Verification development for the dcm4chee-import repository
(`src/python-multi/app`).  Python strings are modelled as `List Char`;
machine integers are `Nat`/`Int`.  Each definition is a shallow embedding
of the correspondingly named Python function; theorems at the end settle
the frozen claims C1-C10.
-/

set_option maxHeartbeats 1000000

/-- Python strings, modelled as character lists. -/
abbrev PyStr := List Char

/-- Coerce a Lean string literal to the `List Char` model. -/
def pyStr (s : String) : PyStr := s.data

/-- Whitespace characters recognised by Python `str.strip()` (ASCII range). -/
def isPyWs (c : Char) : Bool :=
  c = ' ' || c = '\t' || c = '\n' || c = '\r' || c = '\x0b' || c = '\x0c'

/-- Python `str.strip()` (no arguments): drop leading and trailing whitespace. -/
def pyStrip (s : PyStr) : PyStr :=
  ((s.dropWhile isPyWs).reverse.dropWhile isPyWs).reverse

/-- Python `str.lower()` restricted to ASCII case mapping. -/
def pyLower (s : PyStr) : PyStr := s.map Char.toLower

/-- Python `str.upper()` restricted to ASCII case mapping. -/
def pyUpper (s : PyStr) : PyStr := s.map Char.toUpper

/-- Python `str.endswith(suffix)`. -/
def pyEndsWith (s suffix : PyStr) : Bool := decide (suffix <:+ s)

/-- Python `sub in s` (contiguous substring test). -/
def pyContains (s sub : PyStr) : Bool := decide (sub <:+: s)

/-- Python `str.rstrip("_")`. -/
def pyRstripUnderscore (s : PyStr) : PyStr :=
  (s.reverse.dropWhile (· = '_')).reverse

/-- Basename of a path: the part after the last `/` or `\` separator
(Python `pathlib.PurePath.name` on Windows-style paths). -/
def pyPathName (s : PyStr) : PyStr :=
  (s.reverse.takeWhile (fun c => c ≠ '/' ∧ c ≠ '\\')).reverse

/-- Python `pathlib.PurePath.suffix` of a bare file name: the final
dot-extension, empty when the only dot is leading or trailing. -/
def pyNameSuffix (name : PyStr) : PyStr :=
  let tail := name.reverse.takeWhile (· ≠ '.')
  if tail.length = name.length then []          -- no dot at all
  else if tail.length = 0 then []               -- trailing dot
  else if tail.length + 1 = name.length then [] -- the only dot is leading
  else '.' :: tail.reverse

/-- Python `pathlib.PurePath.suffix` of a path. -/
def pyPathSuffix (s : PyStr) : PyStr := pyNameSuffix (pyPathName s)

/-! ### The UID regex `[0-9]+(\.[0-9]+)+` (`UID_VALUE_RE` in `constants.py`) -/

/-- Greedy match of `(\.[0-9]+)+` at the head of the input, with a fuel
argument bounding the recursion depth (structural, so that the kernel
can evaluate it).  Returns the matched prefix together with the rest,
or `none` when no group matches. -/
def uidGroupsF : Nat → PyStr → Option (PyStr × PyStr)
  | 0, _ => none
  | _ + 1, [] => none
  | fuel + 1, c :: rest =>
      if c = '.' then
        let d := rest.takeWhile Char.isDigit
        if d.isEmpty then none
        else
          let rest2 := rest.dropWhile Char.isDigit
          match uidGroupsF fuel rest2 with
          | some (g, r) => some ('.' :: d ++ g, r)
          | none => some ('.' :: d, rest2)
      else none

/-- Greedy match of `(\.[0-9]+)+`: each group consumes at least two
characters, so `s.length` fuel always suffices. -/
def uidGroups (s : PyStr) : Option (PyStr × PyStr) := uidGroupsF s.length s

/-- Greedy match of `[0-9]+(\.[0-9]+)+` anchored at the head of the input. -/
def uidMatchAt (s : PyStr) : Option PyStr :=
  let d1 := s.takeWhile Char.isDigit
  if d1.isEmpty then none
  else
    match uidGroups (s.dropWhile Char.isDigit) with
    | some (g, _) => some (d1 ++ g)
    | none => none

/-- Leftmost regex search: try `uidMatchAt` at each position in turn.
This is `UID_VALUE_RE.search(s)` returning the matched text or `none`. -/
def uidSearch : PyStr → Option PyStr
  | [] => none
  | s@(_ :: t) =>
      match uidMatchAt s with
      | some m => some m
      | none => uidSearch t

/-- `utils.sanitize_uid`: first `[0-9]+(\.[0-9]+)+` match of the stripped
input, or the empty string. -/
def sanitize_uid (value : PyStr) : PyStr :=
  match uidSearch (pyStrip value) with
  | some m => pyStrip m
  | none => []

/-- `utils.normalize_uid_candidate`: collapse all whitespace, then sanitize. -/
def normalize_uid_candidate (value : PyStr) : PyStr :=
  sanitize_uid ((pyStrip value).filter (fun c => ¬ isPyWs c))

/-- `utils.looks_like_dicom_payload_file`. -/
def looks_like_dicom_payload_file (file_path : PyStr) : Bool :=
  let name_up := pyUpper (pyPathName file_path)
  if name_up = pyStr "DICOMDIR" then false
  else
    let ext := pyLower (pyPathSuffix file_path)
    if ext = pyStr ".dcm" ∨ ext = pyStr ".dicom" ∨ ext = pyStr ".ima" then true
    else if ext.isEmpty ∧ ¬ (sanitize_uid (pyPathName file_path)).isEmpty then true
    else false

/-- `utils.normalize_dcm4che_send_mode`. -/
def normalize_dcm4che_send_mode (mode : PyStr) : PyStr :=
  let m := pyUpper (pyStrip mode)
  if m = pyStr "FILES" ∨ m = pyStr "MANIFEST_FILES" then pyStr "MANIFEST_FILES"
  else pyStr "FOLDERS"

/-- `utils.normalize_dcm4che_iuid_update_mode`. -/
def normalize_dcm4che_iuid_update_mode (mode : PyStr) : PyStr :=
  let m := pyUpper (pyStrip mode)
  if m = pyStr "CHUNK_END" ∨ m = pyStr "CHUNK" ∨ m = pyStr "BATCH" then pyStr "CHUNK_END"
  else pyStr "REALTIME"

/-- `utils.toolkit_run_suffix` for the two known toolkits (`dcm4che`,
`dcmtk`); the generic slug branch for unknown toolkits is outside the
claims' scope. -/
def toolkit_run_suffix (toolkit : PyStr) (dcm4che_send_mode : PyStr) : PyStr :=
  let t := pyLower (pyStrip toolkit)
  if t = pyStr "dcm4che" then
    if normalize_dcm4che_send_mode dcm4che_send_mode = pyStr "MANIFEST_FILES" then
      pyStr "dcm4che_files"
    else pyStr "dcm4che_folders"
  else pyStr "dcmtk"

/-- The known run-id suffixes, in the order `strip_known_run_suffixes`
tries them. -/
def knownRunSuffixes : List PyStr :=
  [pyStr "_dcm4che_folders", pyStr "_dcm4che_files", pyStr "_dcm4che", pyStr "_dcmtk"]

/-- One pass of the `strip_known_run_suffixes` loop: if the lowercased
base ends with a known suffix, remove it and strip trailing underscores. -/
def stripRunSuffixOnce (base : PyStr) : Option PyStr :=
  match knownRunSuffixes.find? (fun suffix => pyEndsWith (pyLower base) suffix) with
  | some suffix => some (pyRstripUnderscore (base.take (base.length - suffix.length)))
  | none => none

/-- The `while changed` loop of `utils.strip_known_run_suffixes`, with a
fuel argument (structural recursion, so that the kernel can evaluate it). -/
def stripRunSuffixLoopF : Nat → PyStr → PyStr
  | 0, base => base
  | fuel + 1, base =>
      match stripRunSuffixOnce base with
      | none => base
      | some b => stripRunSuffixLoopF fuel b

/-- The `while changed` loop of `utils.strip_known_run_suffixes`: each pass
strictly shrinks the base, so `base.length` fuel always suffices. -/
def stripRunSuffixLoop (base : PyStr) : PyStr := stripRunSuffixLoopF base.length base

/-- `utils.strip_known_run_suffixes`. -/
def strip_known_run_suffixes (run_id : PyStr) : PyStr :=
  let base := pyStrip run_id
  if base.isEmpty then base else stripRunSuffixLoop base

/-- `AnalyzeWorkflow._with_toolkit_suffix`: normalize a run id by stripping
known driver suffixes and appending the current one. -/
def with_toolkit_suffix (toolkit dcm4che_send_mode run_id : PyStr) : PyStr :=
  let suffix := toolkit_run_suffix toolkit dcm4che_send_mode
  let raw := pyStrip run_id
  if raw.isEmpty then raw
  else
    let base := strip_known_run_suffixes raw
    if pyEndsWith (pyLower base) ('_' :: suffix) then base
    else base ++ '_' :: suffix

/-! ### `subprocess.list2cmdline` (Windows command-line length measurement) -/

/-- `constants.IS_WINDOWS` (`os.name == "nt"`).  The source targets the
Windows platform (`.bat` wrappers, `cmd /c`, `taskkill`); all
command-length budgets in the claims are defined there. -/
def IS_WINDOWS : Bool := true

/-- `constants.WINDOWS_CMD_SAFE_MAX_CHARS`. -/
def WINDOWS_CMD_SAFE_MAX_CHARS : Nat := 7600

/-- `constants.WINDOWS_DIRECT_SAFE_MAX_CHARS`. -/
def WINDOWS_DIRECT_SAFE_MAX_CHARS : Nat := 30000

/-- The per-character loop of CPython `subprocess.list2cmdline`: `bsBuf`
is the pending run of backslashes; a quote doubles the run and is
escaped, any other character flushes the run verbatim. -/
def winArgChars : PyStr → PyStr → PyStr
  | bsBuf, [] => bsBuf
  | bsBuf, c :: rest =>
      if c = '\\' then winArgChars (bsBuf ++ ['\\']) rest
      else if c = '"' then
        List.replicate (2 * bsBuf.length) '\\' ++ '\\' :: '"' :: winArgChars [] rest
      else bsBuf ++ c :: winArgChars [] rest

/-- The trailing backslash run of an argument (the final `bs_buf`),
doubled by `list2cmdline` when the argument is quoted. -/
def winTrailingBackslashCount (arg : PyStr) : Nat :=
  (arg.reverse.takeWhile (· = '\\')).length

/-- One argument as rendered by `subprocess.list2cmdline`: quoted when it
contains a space or tab or is empty. -/
def list2cmdlineArg (arg : PyStr) : PyStr :=
  let needquote := arg.contains ' ' || arg.contains '\t' || arg.isEmpty
  if needquote then
    '"' :: (winArgChars [] arg ++ List.replicate (winTrailingBackslashCount arg) '\\' ++ ['"'])
  else winArgChars [] arg

/-- `subprocess.list2cmdline`: arguments joined with single spaces. -/
def list2cmdline : List PyStr → PyStr
  | [] => []
  | [arg] => list2cmdlineArg arg
  | arg :: rest => list2cmdlineArg arg ++ ' ' :: list2cmdline rest

/-- `utils._windows_cmdline_len`. -/
def _windows_cmdline_len (args : List PyStr) : Nat := (list2cmdline args).length

/-- `utils._windows_cmdline_arg_len`. -/
def _windows_cmdline_arg_len (arg : PyStr) : Nat := (list2cmdline [arg]).length

/-- `utils.command_line_len`; with `IS_WINDOWS = true` this is the
`list2cmdline` length. -/
def command_line_len (args : List PyStr) : Nat :=
  if IS_WINDOWS then _windows_cmdline_len args else _windows_cmdline_len args

/-! ### Configuration and dcm4che command construction -/

/-- `settings.AppConfig` (the fields the claims exercise), with the
source's defaults. -/
structure AppConfig where
  toolkit : PyStr := pyStr "dcm4che"
  dcm4che_bin_path : PyStr := []
  dcmtk_bin_path : PyStr := []
  aet_origem : PyStr := pyStr "HMD_IMPORTER"
  aet_destino : PyStr := pyStr "HMD_IMPORTED"
  pacs_host : PyStr := pyStr "192.168.1.70"
  pacs_port : Nat := 5555
  allowed_extensions_csv : PyStr := pyStr ".dcm"
  restrict_extensions : Bool := true
  include_no_extension : Bool := true
  ts_mode : PyStr := pyStr "AUTO"
  dcm4che_send_mode : PyStr := pyStr "MANIFEST_FILES"
  dcm4che_iuid_update_mode : PyStr := pyStr "REALTIME"
  dcm4che_prefer_java_direct : Bool := true
  dcm4che_use_shell_wrapper : Bool := true

/-- `str(Path(a) / b)` on the Windows platform, for a normalized
directory string `a`. -/
def pyPathJoin (a b : PyStr) : PyStr := if a.isEmpty then b else a ++ '\\' :: b

/-- The `storescu.bat` path `Path(cfg.dcm4che_bin_path) / "storescu.bat"`. -/
def dcm4cheStorescuBat (cfg : AppConfig) : PyStr :=
  pyPathJoin cfg.dcm4che_bin_path (pyStr "storescu.bat")

/-- The connect argument `f"{cfg.aet_destino}@{cfg.pacs_host}:{cfg.pacs_port}"`. -/
def pacsConnectArg (cfg : AppConfig) : PyStr :=
  cfg.aet_destino ++ '@' :: cfg.pacs_host ++ ':' :: (toString cfg.pacs_port).data

/-- `SendWorkflow._build_dcm4che_cmd_bat`: the `.bat` invocation, shell
wrapped with `cmd /c` when configured. -/
def _build_dcm4che_cmd_bat (cfg : AppConfig) (batch_inputs : List PyStr) : List PyStr :=
  let base := dcm4cheStorescuBat cfg :: pyStr "-c" :: pacsConnectArg cfg :: batch_inputs
  if cfg.dcm4che_use_shell_wrapper then pyStr "cmd" :: pyStr "/c" :: base else base

/-- `SendWorkflow._dcm4che_cmd_budget`. -/
def dcm4che_cmd_budget (cfg : AppConfig) : Nat :=
  if IS_WINDOWS && cfg.dcm4che_use_shell_wrapper then WINDOWS_CMD_SAFE_MAX_CHARS
  else WINDOWS_DIRECT_SAFE_MAX_CHARS

/-- Command length of a dcm4che `.bat` sub-batch (the quantity the
splitter and the over-limit guard both measure). -/
def dcm4cheCmdLen (cfg : AppConfig) (batch : List PyStr) : Nat :=
  command_line_len (_build_dcm4che_cmd_bat cfg batch)

/-- The base command measured by `utils.estimate_dcm4che_batch_max_cmd`
(same arguments as `_build_dcm4che_cmd_bat` with no units).  The
`except` fallback of the source performs the same assembly and is not
reachable in this model. -/
def dcm4cheEstimateBaseArgs (cfg : AppConfig) : List PyStr :=
  let base := [dcm4cheStorescuBat cfg, pyStr "-c", pacsConnectArg cfg]
  if cfg.dcm4che_use_shell_wrapper then pyStr "cmd" :: pyStr "/c" :: base else base

/-- `utils.estimate_dcm4che_batch_max_cmd`, returning
`(batch_max_cmd, source, budget)`.  `unit_max_arg_len` and `units_total`
are the scan-produced naturals, so the source's `<= 0` guards become
`= 0` tests. -/
def estimate_dcm4che_batch_max_cmd (cfg : AppConfig) (unit_max_arg_len units_total : Nat) :
    Nat × PyStr × Nat :=
  if IS_WINDOWS && cfg.dcm4che_prefer_java_direct then
    (units_total, pyStr "DCM4CHE_JAVA_ARGFILE", WINDOWS_DIRECT_SAFE_MAX_CHARS)
  else
    let source := pyStr "DCM4CHE_CMD_LIMIT"
    let budget :=
      if IS_WINDOWS && cfg.dcm4che_use_shell_wrapper then WINDOWS_CMD_SAFE_MAX_CHARS
      else WINDOWS_DIRECT_SAFE_MAX_CHARS
    if units_total = 0 then (0, source, budget)
    else if unit_max_arg_len = 0 then (units_total, source, budget)
    else
      let base_len := _windows_cmdline_len (dcm4cheEstimateBaseArgs cfg)
      let remaining : Int := (budget : Int) - (base_len : Int)
      let per_unit_cost : Int := 1 + (unit_max_arg_len : Int)
      if remaining < per_unit_cost then (0, source, budget)
      else (min units_total ((remaining / per_unit_cost).toNat), source, budget)

/-! ### The dcm4che command-length splitter (`SendWorkflow._split_dcm4che_inputs_by_cmd_limit`) -/

/-- The accumulation loop of `_split_dcm4che_inputs_by_cmd_limit`:
extend the current sub-batch while the hypothetical command stays within
budget, otherwise close it and restart from the overflowing unit. -/
def splitByCmdLimit (cfg : AppConfig) : List PyStr → List PyStr → List (List PyStr)
  | current, [] => if current.isEmpty then [] else [current]
  | current, unit :: rest =>
      let trial := current ++ [unit]
      if ¬ current.isEmpty ∧ dcm4cheCmdLen cfg trial > dcm4che_cmd_budget cfg then
        current :: splitByCmdLimit cfg [unit] rest
      else splitByCmdLimit cfg trial rest

/-- `SendWorkflow._split_dcm4che_inputs_by_cmd_limit` (the sub-batch
list; the returned `budget` is `dcm4che_cmd_budget` and the
`max_cmdline_len` component feeds only the `CMDLEN_GUARD_WARN` log
line). -/
def _split_dcm4che_inputs_by_cmd_limit (cfg : AppConfig) (batch_inputs : List PyStr) :
    List (List PyStr) :=
  splitByCmdLimit cfg [] batch_inputs

/-- The per-sub-chunk command check of `SendWorkflow.run_send` in
`CMD_BAT` execution mode (lines 625-670): the command line is measured,
and when it exceeds the safe budget the chunk fails with
`CHUNK_CMD_OVER_LIMIT` before the child is spawned and before any result
row or checkpoint of the chunk is written.  `classifyRows` stands for
the streaming + post-stream classification that produces the chunk's
result rows on the success path; `.error (len, budget)` models the
raise, which yields no rows. -/
def processCmdBatChunk {α : Type} (cfg : AppConfig) (classifyRows : List PyStr → α)
    (inputs : List PyStr) : Except (Nat × Nat) α :=
  let cmdline_len := dcm4cheCmdLen cfg inputs
  let budget := dcm4che_cmd_budget cfg
  if cmdline_len > budget then Except.error (cmdline_len, budget)
  else Except.ok (classifyRows inputs)

/-! ### dcm4che post-stream classification (`SendWorkflow.run_send`, lines 1061-1248) -/

/-- The `__batch__` payload of `Dcm4cheDriver.parse_send_output`: the
IUID lists extracted from the child's stdout by the `C-STORE-RQ` /
`C-STORE-RSP` regexes.  The classification below consumes it as data, as
`run_send` does. -/
structure Dcm4cheBatchOut where
  rq_iuids : List PyStr
  ok_iuids : List PyStr
  err_iuids : List PyStr
  err_status_by_iuid : List (PyStr × PyStr)

/-- `rq_iuid_list` (send.py line 1064): sanitize every request IUID and
drop the empty ones. -/
def dcm4cheRqList (info : Dcm4cheBatchOut) : List PyStr :=
  (info.rq_iuids.map sanitize_uid).filter (fun u => ¬ u.isEmpty)

/-- The metadata-extraction outcome `(iuid, ts_uid, ts_name, error)` of
`ToolkitDriver.extract_metadata` for one file (an external `dcmdump`
child; the classification treats it as an oracle). -/
structure MetaOut where
  iuid : PyStr
  ts_uid : PyStr
  ts_name : PyStr
  err : PyStr

/-- The claim-relevant columns of one `send_results_by_file.csv` row. -/
structure SendRow where
  send_status : PyStr
  status_detail : PyStr
  sop_instance_uid : PyStr
  extract_status : PyStr
deriving DecidableEq

/-- The RQ-order inference map (send.py lines 1072-1082): walk the batch,
skip non-payload files, and pair the k-th payload-looking file with the
k-th sanitized request IUID, stopping when the requests run out. -/
def dcm4cheInferredPairs : List PyStr → List PyStr → List (PyStr × PyStr)
  | _, [] => []
  | [], _ => []
  | f :: files, rq@(u :: rqRest) =>
      if looks_like_dicom_payload_file f then (f, u) :: dcm4cheInferredPairs files rqRest
      else dcm4cheInferredPairs files rq

/-- The `detail` string of the dcm4che classification right after the
metadata-error append (send.py lines 1132-1137): the base
`dcm4che parse: ...` summary plus the optional `;meta_err=` suffix. -/
def dcm4cheDetail1 (iuid_update_mode : PyStr) (info : Dcm4cheBatchOut)
    (rq_list : List PyStr) (exit_code : Int) (merr : PyStr) : PyStr :=
  let detail0 :=
    pyStr "dcm4che parse: iuid_mode=" ++ iuid_update_mode ++
    pyStr ";rq_iuids=" ++ (toString rq_list.dedup.length).data ++
    pyStr ";ok_iuids=" ++ (toString info.ok_iuids.length).data ++
    pyStr ";err_iuids=" ++ (toString info.err_iuids.length).data ++
    pyStr ";exit_code=" ++ (toString exit_code).data
  if ¬ merr.isEmpty then detail0 ++ pyStr ";meta_err=" ++ merr else detail0

/-- The `detail` string after the override / inferred / empty-extract
appends (send.py lines 1138-1144), on top of `dcm4cheDetail1`. -/
def dcm4cheDetail3 (detail1 src_iuid_prev src2 : PyStr) (uid_was_inferred : Prop)
    [Decidable uid_was_inferred] : PyStr :=
  let detail2 :=
    if ¬ src_iuid_prev.isEmpty then
      detail1 ++ pyStr ";uid_override=" ++ src_iuid_prev ++ pyStr "->" ++ src2
    else if uid_was_inferred then detail1 ++ pyStr ";uid_inferred=RQ_ORDER"
    else detail1
  if src2.isEmpty then detail2 ++ pyStr ";uid_extract=EMPTY" else detail2

/-- The per-file dcm4che post-stream classification (send.py lines
1088-1198), for a file not already written by the real-time pass.
Returns the row columns `{send_status, status_detail, sop_instance_uid,
extract_status}`. -/
def dcm4cheClassifyFile (iuid_update_mode : PyStr) (info : Dcm4cheBatchOut)
    (inferredMap : List (PyStr × PyStr)) (exit_code : Int) (meta : MetaOut) (fp : PyStr) :
    SendRow :=
  let rq_list := dcm4cheRqList info
  let src0 := normalize_uid_candidate meta.iuid
  -- filename fallback (lines 1107-1111)
  let src1 :=
    if src0.isEmpty ∧ looks_like_dicom_payload_file fp then
      normalize_uid_candidate (pyPathName fp)
    else src0
  let uid_from_filename := src0.isEmpty ∧ looks_like_dicom_payload_file fp ∧ ¬ src1.isEmpty
  let uid_source1 :=
    if ¬ src0.isEmpty then pyStr "METADATA"
    else if uid_from_filename then pyStr "FILENAME_FALLBACK"
    else pyStr "NONE"
  -- RQ-order override (lines 1112-1130)
  let inferred := (List.lookup fp inferredMap).getD []
  let override := ¬ inferred.isEmpty ∧
    (src1.isEmpty ∨ (src1 ∉ info.ok_iuids ∧ src1 ∉ info.err_iuids ∧ src1 ∉ rq_list))
  let src_iuid_prev := if override ∧ ¬ src1.isEmpty ∧ src1 ≠ inferred then src1 else []
  let src2 := if override then inferred else src1
  let uid_was_inferred := override
  let uid_source2 := if override then pyStr "RQ_ORDER" else uid_source1
  -- detail assembly (lines 1132-1144)
  let detail3 :=
    dcm4cheDetail3 (dcm4cheDetail1 iuid_update_mode info rq_list exit_code meta.err)
      src_iuid_prev src2 uid_was_inferred
  -- status chain (lines 1146-1171)
  if ¬ src2.isEmpty ∧ src2 ∈ info.ok_iuids then
    { send_status := pyStr "SENT_OK", status_detail := detail3,
      sop_instance_uid := src2, extract_status := pyStr "OK_FROM_STORESCU" }
  else if ¬ src2.isEmpty ∧ src2 ∈ info.err_iuids then
    { send_status := pyStr "SEND_FAIL",
      status_detail := detail3 ++ pyStr ";rsp_status=" ++
        ((List.lookup src2 info.err_status_by_iuid).getD (pyStr "UNKNOWN")),
      sop_instance_uid := src2, extract_status := pyStr "ERR_FROM_STORESCU" }
  else if ¬ src2.isEmpty ∧ src2 ∈ rq_list then
    { send_status := pyStr "SENT_UNKNOWN", status_detail := detail3,
      sop_instance_uid := src2, extract_status := pyStr "REQUESTED_NO_RSP" }
  else if exit_code ≠ 0 then
    { send_status := pyStr "SEND_FAIL", status_detail := detail3,
      sop_instance_uid := src2, extract_status := pyStr "PROCESS_EXIT_FAIL" }
  else
    let detail4 := detail3 ++ pyStr ";uid_source=" ++ uid_source2
    if ¬ src2.isEmpty ∧ src2 ∉ info.ok_iuids ∧ src2 ∉ info.err_iuids ∧ src2 ∉ rq_list then
      let detail5 := detail4 ++ pyStr ";uid_persisted=NO"
      let detail6 :=
        if uid_from_filename then detail5 ++ pyStr ";uid_filename_fallback_rejected=YES"
        else detail5
      { send_status := pyStr "SENT_UNKNOWN", status_detail := detail6,
        sop_instance_uid := [], extract_status := pyStr "NO_MATCH_UID_UNCONFIRMED" }
    else if ¬ src2.isEmpty then
      { send_status := pyStr "SENT_UNKNOWN", status_detail := detail4 ++ pyStr ";uid_persisted=YES",
        sop_instance_uid := src2, extract_status := pyStr "NO_MATCH" }
    else
      let detail5 :=
        if uid_from_filename then detail4 ++ pyStr ";uid_filename_fallback_rejected=YES"
        else detail4
      { send_status := pyStr "SENT_UNKNOWN", status_detail := detail5,
        sop_instance_uid := [], extract_status := pyStr "NO_MATCH" }

/-- The dcm4che post-stream pass over one sub-chunk (send.py lines
1084-1248): classify every batch file not already written by the
real-time pass, in batch order. -/
def dcm4chePostStreamRows (iuid_update_mode : PyStr) (info : Dcm4cheBatchOut)
    (exit_code : Int) (meta : PyStr → MetaOut) (realtime_written : List PyStr)
    (batch_files : List PyStr) : List (PyStr × SendRow) :=
  let inferredMap := dcm4cheInferredPairs batch_files (dcm4cheRqList info)
  (batch_files.filter (fun fp => fp ∉ realtime_written)).map
    (fun fp => (fp, dcm4cheClassifyFile iuid_update_mode info inferredMap exit_code (meta fp) fp))

/-! ### dcmtk driver output parsing (`DcmtkDriver.parse_send_output`)

The six `DCMTK_*_RE` regexes of `constants.py` are embedded as explicit
matchers with Python `re.search` semantics: leftmost match position,
greedy `\s+`/`.+` with backtracking, non-greedy `(.+?)` trying the
shortest group first. -/

/-- `\s+` immediately followed by a non-whitespace literal: the greedy
whitespace run is forced, so succeed iff at least one whitespace char
was consumed, returning the rest. -/
def wsPlusThen (s : PyStr) : Option PyStr :=
  let r := s.dropWhile isPyWs
  if r.length = s.length then none else some r

/-- Match a literal prefix and return the remainder. -/
def afterLiteral (lit s : PyStr) : Option PyStr :=
  if lit.isPrefixOf s then some (s.drop lit.length) else none

/-- `\s+(.+)$` with Python backtracking: at least one whitespace char,
then a non-empty group running to the end of the line; when only
whitespace remains, the greedy `\s+` gives one char back to the group. -/
def matchWsPlusRestNonempty (s : PyStr) : Option PyStr :=
  let w := s.takeWhile isPyWs
  let r := s.dropWhile isPyWs
  if w.isEmpty then none
  else if ¬ r.isEmpty then some r
  else if 2 ≤ w.length then some (w.drop (w.length - 1))
  else none

/-- `\s*(.+)$` with Python backtracking: succeeds iff the input is
non-empty; the group is the input after the greedy whitespace run, or
the final whitespace char when nothing else remains. -/
def wsStarRest (s : PyStr) : Option PyStr :=
  if s.isEmpty then none
  else
    let r := s.dropWhile isPyWs
    if ¬ r.isEmpty then some r else some (s.drop (s.length - 1))

/-- `re.search`: try the matcher at every position, leftmost first,
including the final empty position. -/
def reSearch {α : Type} (matchAt : PyStr → Option α) : PyStr → Option α
  | [] => matchAt []
  | s@(_ :: t) =>
      match matchAt s with
      | some r => some r
      | none => reSearch matchAt t

/-- `DCMTK_SENDING_FILE_RE` (`I:\s+Sending file:\s+(.+)$`) anchored at
one position. -/
def matchSendingFileAt : PyStr → Option PyStr
  | 'I' :: ':' :: rest =>
      (wsPlusThen rest).bind fun r1 =>
        (afterLiteral (pyStr "Sending file:") r1).bind matchWsPlusRestNonempty
  | _ => none

/-- `DCMTK_NO_SOP_UID_RE`
(`E:\s+No SOP Class or Instance UID in file:\s+(.+)$`) anchored at one
position. -/
def matchNoSopAt : PyStr → Option PyStr
  | 'E' :: ':' :: rest =>
      (wsPlusThen rest).bind fun r1 =>
        (afterLiteral (pyStr "No SOP Class or Instance UID in file:") r1).bind
          matchWsPlusRestNonempty
  | _ => none

/-- `DCMTK_STORE_RSP_RE` (`I:\s+Received Store Response\s+\((.+)\)$`)
anchored at one position: the group is the non-empty text between the
opening parenthesis and the final character of the line, which must be a
closing parenthesis. -/
def matchStoreRspAt : PyStr → Option PyStr
  | 'I' :: ':' :: rest =>
      (wsPlusThen rest).bind fun r1 =>
        (afterLiteral (pyStr "Received Store Response") r1).bind fun r2 =>
          let w := r2.takeWhile isPyWs
          let r := r2.dropWhile isPyWs
          if w.isEmpty then none
          else
            match r with
            | '(' :: inner =>
                match inner.reverse with
                | ')' :: revBody => if revBody.isEmpty then none else some revBody.reverse
                | _ => none
            | _ => none
  | _ => none

/-- The non-greedy `(.+?):\s*(.+)$` scan of `DCMTK_BAD_FILE_RE`: grow
the first group one char at a time until a `:` follows and the rest
still satisfies `\s*(.+)$`. -/
def badFileScanGo : PyStr → PyStr → Option (PyStr × PyStr)
  | _, [] => none
  | acc, c :: rest =>
      let g1 := acc ++ [c]
      match rest with
      | ':' :: tail =>
          match wsStarRest tail with
          | some g2 => some (g1, g2)
          | none => badFileScanGo g1 rest
      | _ => badFileScanGo g1 rest

/-- Backtracking of the `\s+` run before `(.+?)` in `DCMTK_BAD_FILE_RE`:
try the greedy whitespace count first, then shorter runs. -/
def tryBadWs (u : PyStr) : Nat → Option (PyStr × PyStr)
  | 0 => none
  | j + 1 =>
      match badFileScanGo [] (u.drop (j + 1)) with
      | some r => some r
      | none => tryBadWs u j

/-- `DCMTK_BAD_FILE_RE` (`E:\s+Bad DICOM file:\s+(.+?):\s*(.+)$`)
anchored at one position. -/
def matchBadFileAt : PyStr → Option (PyStr × PyStr)
  | 'E' :: ':' :: rest =>
      (wsPlusThen rest).bind fun r1 =>
        (afterLiteral (pyStr "Bad DICOM file:") r1).bind fun u =>
          tryBadWs u (u.takeWhile isPyWs).length
  | _ => none

/-- The non-greedy `(.+?):\s*$` scan of `DCMTK_STORE_FAILED_FILE_RE`:
grow the group until a `:` follows with only whitespace to the end. -/
def failedFileScanGo : PyStr → PyStr → Option PyStr
  | _, [] => none
  | acc, c :: rest =>
      let g1 := acc ++ [c]
      match rest with
      | ':' :: tail =>
          if tail.all isPyWs then some g1 else failedFileScanGo g1 rest
      | _ => failedFileScanGo g1 rest

/-- Backtracking of the `\s+` run before `(.+?)` in
`DCMTK_STORE_FAILED_FILE_RE`. -/
def tryFailedWs (u : PyStr) : Nat → Option PyStr
  | 0 => none
  | j + 1 =>
      match failedFileScanGo [] (u.drop (j + 1)) with
      | some r => some r
      | none => tryFailedWs u j

/-- `DCMTK_STORE_FAILED_FILE_RE` (`E:\s+Store Failed,\s*file:\s+(.+?):\s*$`)
anchored at one position. -/
def matchFailedFileAt : PyStr → Option PyStr
  | 'E' :: ':' :: rest =>
      (wsPlusThen rest).bind fun r1 =>
        (afterLiteral (pyStr "Store Failed,") r1).bind fun r2 =>
          (afterLiteral (pyStr "file:") (r2.dropWhile isPyWs)).bind fun u =>
            tryFailedWs u (u.takeWhile isPyWs).length
  | _ => none

/-- A hex digit of the case-insensitive class `[0-9A-F]`. -/
def isHexDigitCI (c : Char) : Bool :=
  c.isDigit || ('A' ≤ c && c ≤ 'F') || ('a' ≤ c && c ≤ 'f')

/-- `DCMTK_STORE_FAILED_REASON_RE`
(`E:\s+([0-9A-F]{4}:[0-9A-F]{4}\s+.+)$`, `re.IGNORECASE`) anchored at
one position; the greedy `.+` makes the group run from the first hex
digit to the end of the line. -/
def matchFailedReasonAt : PyStr → Option PyStr
  | c0 :: ':' :: rest =>
      if c0.toUpper = 'E' then
        let w := rest.takeWhile isPyWs
        let r := rest.dropWhile isPyWs
        if w.isEmpty then none
        else
          match r with
          | a :: b :: c :: d :: ':' :: e :: f :: g :: h :: rest2 =>
              if [a, b, c, d, e, f, g, h].all isHexDigitCI ∧
                  (matchWsPlusRestNonempty rest2).isSome
              then some r else none
          | _ => none
      else none
  | _ => none

/-- Python `dict` assignment `m[k] = v` on an insertion-ordered
association list. -/
def dictInsert {β : Type} (m : List (PyStr × β)) (k : PyStr) (v : β) : List (PyStr × β) :=
  if (List.lookup k m).isSome then m.map (fun p => if p.1 = k then (k, v) else p)
  else m ++ [(k, v)]

/-- Python `dict.setdefault(k, v)` (the resulting dict). -/
def dictSetdefault {β : Type} (m : List (PyStr × β)) (k : PyStr) (v : β) : List (PyStr × β) :=
  if (List.lookup k m).isSome then m else m ++ [(k, v)]

/-- One row of `DcmtkDriver.parse_send_output`'s result dict. -/
structure DcmtkRow where
  send_status : PyStr
  status_detail : PyStr
deriving DecidableEq

/-- The loop state of `DcmtkDriver.parse_send_output`. -/
structure DcmtkParseState where
  result : List (PyStr × DcmtkRow)
  current_file : PyStr
  pending_failed_file : PyStr

/-- The Store-Response classification shared by
`DcmtkDriver.parse_send_output` (lines 233-240) and the real-time dcmtk
handler of `run_send` (lines 1016-1027): `Success` in the detail means
`SENT_OK`, anything else `SEND_FAIL`, overridden to
`UNSUPPORTED_DICOM_OBJECT` when the detail contains
`Unknown Status: 0x110` and the file's basename uppercases to
`DICOMDIR`. -/
def dcmtkRspStatus (detail current_file : PyStr) : PyStr :=
  let s := if pyContains detail (pyStr "Success") then pyStr "SENT_OK" else pyStr "SEND_FAIL"
  if pyContains detail (pyStr "Unknown Status: 0x110") ∧
      pyUpper (pyPathName current_file) = pyStr "DICOMDIR"
  then pyStr "UNSUPPORTED_DICOM_OBJECT" else s

/-- The Store-Response tail of the per-line dispatch (checked last, only
when the earlier markers did not fire or their guards failed). -/
def dcmtkRspCheck (st : DcmtkParseState) (line : PyStr) : DcmtkParseState :=
  match reSearch matchStoreRspAt line with
  | some g =>
      if ¬ st.current_file.isEmpty then
        let detail := pyStrip g
        { st with
          result := dictInsert st.result st.current_file
            ⟨dcmtkRspStatus detail st.current_file, detail⟩,
          pending_failed_file := [] }
      else st
  | none => st

/-- One line of the `DcmtkDriver.parse_send_output` loop (lines
188-240): the six markers tried in source order, each acting and
short-circuiting when it fires. -/
def dcmtkParseLine (st : DcmtkParseState) (line : PyStr) : DcmtkParseState :=
  match reSearch matchSendingFileAt line with
  | some g =>
      let cf := pyStrip g
      { result := dictSetdefault st.result cf
          ⟨pyStr "SENT_UNKNOWN", pyStr "File sending initiated; awaiting response"⟩,
        current_file := cf, pending_failed_file := [] }
  | none =>
  match reSearch matchBadFileAt line with
  | some g =>
      { st with
        result := dictInsert st.result (pyStrip g.1) ⟨pyStr "NON_DICOM", pyStrip g.2⟩,
        pending_failed_file := [] }
  | none =>
  match reSearch matchNoSopAt line with
  | some g =>
      let bad := pyStrip g
      { result := dictInsert st.result bad
          ⟨pyStr "SENT_UNKNOWN", pyStr "No SOP Class or Instance UID in file"⟩,
        current_file := bad, pending_failed_file := [] }
  | none =>
  match reSearch matchFailedFileAt line with
  | some g =>
      let pf := pyStrip g
      { result := dictInsert st.result pf
          ⟨pyStr "SENT_UNKNOWN", pyStr "Store failed; awaiting reason line"⟩,
        current_file := pf, pending_failed_file := pf }
  | none =>
  match reSearch matchFailedReasonAt line with
  | some g =>
      if ¬ st.pending_failed_file.isEmpty then
        { st with
          result := dictInsert st.result st.pending_failed_file
            ⟨pyStr "SENT_UNKNOWN", pyStrip g⟩,
          pending_failed_file := [] }
      else dcmtkRspCheck st line
  | none => dcmtkRspCheck st line

/-- The default row for batch files never touched by the output (lines
241-249). -/
def dcmtkNoMatchRow : DcmtkRow :=
  ⟨pyStr "SENT_UNKNOWN", pyStr "parse_status=UNKNOWN;reason=no_match_in_output"⟩

/-- `DcmtkDriver.parse_send_output`: run the line loop from the empty
state, then `setdefault` every batch file to the no-match row. -/
def parse_send_output_dcmtk (lines batch_files : List PyStr) : List (PyStr × DcmtkRow) :=
  batch_files.foldl (fun m fp => dictSetdefault m fp dcmtkNoMatchRow)
    ((lines.foldl dcmtkParseLine ⟨[], [], []⟩).result)

/-! ### Send checkpoints (`_write_send_checkpoint`, send.py lines 536-557) -/

/-- The JSON object written by `SendWorkflow.run_send`'s
`_write_send_checkpoint` closure. -/
structure SendCheckpoint where
  run_id : PyStr
  done_units : Nat
  done_files : Nat
  checkpoint_mode : PyStr
  checkpoint_reason : PyStr
deriving DecidableEq

/-- `_write_send_checkpoint`: the closure writes `done_units` from the
item cursor in file-unit mode and from the unit cursor otherwise, and
always stores `"ITEM"` in the `checkpoint_mode` field; the `reason`
argument lands in `checkpoint_reason`. -/
def _write_send_checkpoint (run : PyStr) (send_unit_is_file_mode : Bool)
    (item_cursor unit_cursor : Nat) (reason : PyStr) : SendCheckpoint :=
  { run_id := run,
    done_units := if send_unit_is_file_mode then item_cursor else unit_cursor,
    done_files := item_cursor,
    checkpoint_mode := pyStr "ITEM",
    checkpoint_reason := reason }

/-- One sub-chunk of the Send loop as a checkpoint trace (send.py lines
1248, 1330-1332): an `ITEM`-reason checkpoint after each written file
row, then `unit_cursor` advances and a `CHUNK_SYNC`-reason checkpoint is
written. -/
def sendChunkTraceStep (run : PyStr) (file_mode : Bool) :
    Nat × Nat × List SendCheckpoint → List PyStr → Nat × Nat × List SendCheckpoint
  | (item_cursor, unit_cursor, acc), chunk =>
      let itemAcc := chunk.foldl
        (fun (p : Nat × List SendCheckpoint) _ =>
          (p.1 + 1, p.2 ++ [_write_send_checkpoint run file_mode (p.1 + 1) unit_cursor (pyStr "ITEM")]))
        (item_cursor, acc)
      let unit2 := unit_cursor + chunk.length
      (itemAcc.1, unit2,
        itemAcc.2 ++ [_write_send_checkpoint run file_mode itemAcc.1 unit2 (pyStr "CHUNK_SYNC")])

/-- The checkpoint trace of a full Send invocation over its prepared
sub-chunks (each given by its file list). -/
def sendChunkTrace (run : PyStr) (file_mode : Bool) (chunks : List (List PyStr)) :
    List SendCheckpoint :=
  (chunks.foldl (sendChunkTraceStep run file_mode) (0, 0, [])).2.2

/-! ### Validate reconciliation status (`ValidationWorkflow.run_validation`, lines 402-470) -/

/-- The per-IUID REST lookup classification (validation.py line 434):
`OK` on a non-empty list, `API_ERROR` on transport errors (status `ERR`
or empty), `NOT_FOUND` otherwise. -/
def classifyRestLookup (api_found : Nat) (http_status : PyStr) : PyStr :=
  if api_found = 1 then pyStr "OK"
  else if http_status = pyStr "ERR" ∨ http_status = [] then pyStr "API_ERROR"
  else pyStr "NOT_FOUND"

/-- The `ok_count` / `miss_count` / `api_err_count` accumulators of the
REST loop (validation.py lines 426-432). -/
structure ValCounts where
  ok : Nat
  miss : Nat
  apiErr : Nat
deriving DecidableEq

/-- One REST outcome `(api_found, http_status)` folded into the counters. -/
def valCountsStep (c : ValCounts) (o : Nat × PyStr) : ValCounts :=
  if o.1 = 1 then { c with ok := c.ok + 1 }
  else if o.2 = pyStr "ERR" ∨ o.2 = [] then { c with apiErr := c.apiErr + 1 }
  else { c with miss := c.miss + 1 }

/-- Counter totals over the per-unique-IUID REST outcomes. -/
def valCounts (outcomes : List (Nat × PyStr)) : ValCounts :=
  outcomes.foldl valCountsStep ⟨0, 0, 0⟩

/-- The send-level `(warnings_count, fail_count)` recount of
validation.py lines 457-464. -/
def sendWarnFailCounts (send_statuses : List PyStr) : Nat × Nat :=
  send_statuses.foldl
    (fun c st =>
      if st = pyStr "NON_DICOM" ∨ st = pyStr "UNSUPPORTED_DICOM_OBJECT" ∨ st = pyStr "SENT_UNKNOWN"
      then (c.1 + 1, c.2)
      else if st = pyStr "SEND_FAIL" then (c.1, c.2 + 1)
      else c)
    (0, 0)

/-- The `final_status` assignment of validation.py lines 466-470. -/
def validationFinalStatus (fail_count ok_count miss_count api_err_count : Nat) : PyStr :=
  let s :=
    if fail_count > 0 ∨ api_err_count > 0 ∨ miss_count > 0 then pyStr "PASS_WITH_WARNINGS"
    else pyStr "PASS"
  if api_err_count > 0 ∧ ok_count = 0 then pyStr "FAIL" else s

/-- Reconciliation final status of a Validate run, from the send-result
statuses and the per-unique-IUID REST outcomes. -/
def runValidationStatus (send_statuses : List PyStr) (outcomes : List (Nat × PyStr)) : PyStr :=
  let c := valCounts outcomes
  let wf := sendWarnFailCounts send_statuses
  validationFinalStatus wf.2 c.ok c.miss c.apiErr

/-! ### Analyze selection filter (`AnalyzeWorkflow.run_analysis`, lines 96-99 and 196-207) -/

/-- The effective `restrict_extensions` flag: forced off when the
toolkit is dcm4che in folder send-mode (analyze.py lines 96-99). -/
def analyzeEffectiveRestrict (cfg : AppConfig) : Bool :=
  let force := cfg.toolkit = pyStr "dcm4che" ∧
    normalize_dcm4che_send_mode cfg.dcm4che_send_mode = pyStr "FOLDERS"
  if force then false else cfg.restrict_extensions

/-- The per-file selection predicate of the Analyze scan (analyze.py
lines 196-207): `(selected_for_send, selection_reason)` for one
directory-entry name. -/
def analyzeSelection (restrict_extensions : Bool) (allowed_ext : List PyStr)
    (include_no_ext : Bool) (entry_name : PyStr) : Bool × PyStr :=
  let ext := pyLower (pyNameSuffix entry_name)
  let no_ext := ext.isEmpty
  if restrict_extensions then
    if ext ∈ allowed_ext then (true, pyStr "INCLUDED_EXT")
    else if no_ext ∧ include_no_ext then (true, pyStr "INCLUDED_NO_EXT")
    else (false, pyStr "EXCLUDED_EXTENSION")
  else (true, pyStr "INCLUDED_ALL_FILES")

/-! ## Helper lemmas: command-line lengths and the splitter -/

/-- The default configuration used as a concrete witness input. -/
def witnessCfg : AppConfig := {}

/-- A unit path longer than the 7 600-char shell-wrapper budget. -/
def oversizedUnit : PyStr := List.replicate 7601 'a'
/-- A CMD-limit configuration: no argfile, no shell wrapper. -/
def c3Cfg : AppConfig :=
  { dcm4che_prefer_java_direct := false, dcm4che_use_shell_wrapper := false,
    dcm4che_bin_path := pyStr "C:\\app\\toolkits\\dcm4che-5\\bin" }
/-- The checkpoint-shape invariant: `checkpoint_mode` is always `ITEM`
and `checkpoint_reason` is `ITEM` or `CHUNK_SYNC`. -/
def checkpointShape (cp : SendCheckpoint) : Prop :=
  cp.checkpoint_mode = pyStr "ITEM" ∧
    (cp.checkpoint_reason = pyStr "ITEM" ∨ cp.checkpoint_reason = pyStr "CHUNK_SYNC")
/-- Concrete inputs for the C1 counterexample and witness. -/
def c1F1 : PyStr := pyStr "C:\\exams\\a.dcm"

def c1F2 : PyStr := pyStr "C:\\exams\\DICOMDIR"

def c1Batch : List PyStr := [c1F1, c1F2]

def c1Meta : PyStr → MetaOut := fun fp =>
  if fp = c1F1 then ⟨pyStr "1.2.3", pyStr "1.2.840.10008.1.2", pyStr "1.2.840.10008.1.2", []⟩
  else ⟨[], [], [], []⟩

def c1Info : Dcm4cheBatchOut :=
  ⟨[pyStr "1.2.3"], [pyStr "1.2.3"], [], []⟩
/-- Does a line capture `fp` as the file name of one of the four
name-capturing dcmtk markers?  Files never captured this way are never
assigned a row by the parse loop. -/
def dcmtkTouches (line fp : PyStr) : Prop :=
  (reSearch matchSendingFileAt line).map pyStrip = some fp ∨
  (reSearch matchBadFileAt line).map (fun g => pyStrip g.1) = some fp ∨
  (reSearch matchNoSopAt line).map pyStrip = some fp ∨
  (reSearch matchFailedFileAt line).map pyStrip = some fp

instance (line fp : PyStr) : Decidable (dcmtkTouches line fp) := by
  unfold dcmtkTouches; infer_instance

/-- The state invariant for a file never touched by the output. -/
def dcmtkUntouched (fp : PyStr) (st : DcmtkParseState) : Prop :=
  List.lookup fp st.result = none ∧ st.current_file ≠ fp ∧ st.pending_failed_file ≠ fp

theorem stripRunSuffixOnce_length_lt {base b : PyStr}
    (h : stripRunSuffixOnce base = some b) : b.length < base.length := by
  unfold stripRunSuffixOnce at h
  cases hf : knownRunSuffixes.find? (fun suffix => pyEndsWith (pyLower base) suffix) with
  | none => rw [hf] at h; exact absurd h (by simp)
  | some suffix =>
      rw [hf] at h
      have hmem := List.mem_of_find?_eq_some hf
      have hp := List.find?_some hf
      have hsuf : suffix <:+ pyLower base := of_decide_eq_true hp
      have hlen : suffix.length ≤ base.length := by
        have := hsuf.length_le
        simpa [pyLower] using this
      have hpos : 0 < suffix.length := by
        fin_cases hmem <;> simp [pyStr]
      have hb : b = pyRstripUnderscore (base.take (base.length - suffix.length)) := by
        injection h with h2; exact h2.symm
      have h1 : b.length ≤ (base.take (base.length - suffix.length)).length := by
        rw [hb]
        unfold pyRstripUnderscore
        simpa using
          List.Sublist.length_le
            ((List.dropWhile_sublist (l := (base.take (base.length - suffix.length)).reverse)
              (· = '_')).reverse)
      have h2 : (base.take (base.length - suffix.length)).length < base.length := by
        simp only [List.length_take]
        omega
      omega

theorem list2cmdline_cons_cons (a b : PyStr) (rest : List PyStr) :
    list2cmdline (a :: b :: rest) = list2cmdlineArg a ++ ' ' :: list2cmdline (b :: rest) := rfl

/-- Length of a joined command line: the argument lengths plus one
separator between consecutive arguments. -/
theorem list2cmdline_length (args : List PyStr) (h : args ≠ []) :
    (list2cmdline args).length =
      (args.map (fun a => (list2cmdlineArg a).length)).sum + (args.length - 1) := by
  induction args with
  | nil => exact absurd rfl h
  | cons a rest ih =>
      cases rest with
      | nil => simp [list2cmdline]
      | cons b r =>
          rw [list2cmdline_cons_cons]
          have hr := ih (by simp)
          simp only [List.map_cons, List.sum_cons, List.length_append, List.length_cons] at *
          omega

/-- Appending more arguments never shortens the command line. -/
theorem list2cmdline_length_append_le (xs ys : List PyStr) :
    (list2cmdline xs).length ≤ (list2cmdline (xs ++ ys)).length := by
  cases xs with
  | nil => simp [list2cmdline]
  | cons a xs0 =>
      cases ys with
      | nil => simp
      | cons b ys0 =>
          rw [list2cmdline_length (a :: xs0) (by simp),
            list2cmdline_length ((a :: xs0) ++ b :: ys0) (by simp)]
          simp only [List.map_append, List.sum_append, List.length_append, List.length_cons]
          omega

/-- A command containing one argument of a batch is at most as long as
the command containing the whole batch. -/
theorem list2cmdline_length_mem_le (pre xs : List PyStr) (u : PyStr) (hu : u ∈ xs) :
    (list2cmdline (pre ++ [u])).length ≤ (list2cmdline (pre ++ xs)).length := by
  have hxs : xs ≠ [] := by rintro rfl; simp at hu
  have h1 : (list2cmdlineArg u).length ≤
      (xs.map (fun a => (list2cmdlineArg a).length)).sum := by
    refine List.single_le_sum (fun x _ => Nat.zero_le x) _ ?_
    exact List.mem_map.mpr ⟨u, hu, rfl⟩
  have hlen : 1 ≤ xs.length := by
    cases xs with
    | nil => exact absurd rfl hxs
    | cons _ _ => simp
  rw [list2cmdline_length (pre ++ [u]) (by simp),
    list2cmdline_length (pre ++ xs) (by simp [hxs])]
  simp only [List.map_append, List.sum_append, List.length_append, List.map_cons,
    List.map_nil, List.sum_cons, List.sum_nil, List.length_cons, List.length_nil]
  omega

/-- `_build_dcm4che_cmd_bat` is the estimate's base command followed by
the batch units. -/
theorem build_cmd_bat_eq (cfg : AppConfig) (b : List PyStr) :
    _build_dcm4che_cmd_bat cfg b = dcm4cheEstimateBaseArgs cfg ++ b := by
  unfold _build_dcm4che_cmd_bat dcm4cheEstimateBaseArgs
  cases cfg.dcm4che_use_shell_wrapper <;> simp

theorem dcm4cheCmdLen_append_le (cfg : AppConfig) (xs ys : List PyStr) :
    dcm4cheCmdLen cfg xs ≤ dcm4cheCmdLen cfg (xs ++ ys) := by
  unfold dcm4cheCmdLen command_line_len _windows_cmdline_len
  rw [build_cmd_bat_eq, build_cmd_bat_eq]
  simp only [ite_self]
  rw [← List.append_assoc]
  exact list2cmdline_length_append_le _ _

theorem dcm4cheCmdLen_mem_le (cfg : AppConfig) (b : List PyStr) (u : PyStr) (hu : u ∈ b) :
    dcm4cheCmdLen cfg [u] ≤ dcm4cheCmdLen cfg b := by
  unfold dcm4cheCmdLen command_line_len _windows_cmdline_len
  rw [build_cmd_bat_eq, build_cmd_bat_eq]
  simp only [ite_self]
  exact list2cmdline_length_mem_le _ _ _ hu

/-- The splitter partitions its input: concatenating the sub-batches
recovers the accumulator followed by the remaining units. -/
theorem splitByCmdLimit_flatten (cfg : AppConfig) :
    ∀ (units current : List PyStr),
      (splitByCmdLimit cfg current units).flatten = current ++ units := by
  intro units
  induction units with
  | nil =>
      intro current
      by_cases h : current.isEmpty
      · simp [splitByCmdLimit, h, List.isEmpty_iff.mp h]
      · simp [splitByCmdLimit, h]
  | cons u rest ih =>
      intro current
      simp only [splitByCmdLimit]
      split
      · simp [ih [u]]
      · simp [ih (current ++ [u])]

/-- Every sub-batch produced by the splitter is non-empty. -/
theorem splitByCmdLimit_ne_nil (cfg : AppConfig) :
    ∀ (units current : List PyStr), ∀ b ∈ splitByCmdLimit cfg current units, b ≠ [] := by
  intro units
  induction units with
  | nil =>
      intro current b hb
      by_cases h : current.isEmpty
      · simp [splitByCmdLimit, h] at hb
      · simp [splitByCmdLimit, h] at hb
        subst hb
        exact fun hc => h (by simp [hc])
  | cons u rest ih =>
      intro current b hb
      simp only [splitByCmdLimit] at hb
      split at hb
      · rcases List.mem_cons.mp hb with rfl | hb2
        · rename_i hcond
          exact fun hc => hcond.1 (by simp [hc])
        · exact ih [u] b hb2
      · exact ih (current ++ [u]) b hb

/-- Splitter invariant: every produced sub-batch with more than one unit
fits within the command budget. -/
theorem splitByCmdLimit_budget (cfg : AppConfig) :
    ∀ (units current : List PyStr),
      (current = [] ∨ current.length = 1 ∨ dcm4cheCmdLen cfg current ≤ dcm4che_cmd_budget cfg) →
      ∀ b ∈ splitByCmdLimit cfg current units, 1 < b.length →
        dcm4cheCmdLen cfg b ≤ dcm4che_cmd_budget cfg := by
  intro units
  induction units with
  | nil =>
      intro current hinv b hb hlen
      by_cases h : current.isEmpty
      · simp [splitByCmdLimit, h] at hb
      · simp [splitByCmdLimit, h] at hb
        subst hb
        rcases hinv with rfl | h1 | h2
        · simp at hlen
        · omega
        · exact h2
  | cons u rest ih =>
      intro current hinv b hb hlen
      simp only [splitByCmdLimit] at hb
      split at hb
      · rcases List.mem_cons.mp hb with rfl | hb2
        · rcases hinv with rfl | h1 | h2
          · simp at hlen
          · omega
          · exact h2
        · exact ih [u] (Or.inr (Or.inl rfl)) b hb2 hlen
      · rename_i hcond
        refine ih (current ++ [u]) ?_ b hb hlen
        by_cases hc : current.isEmpty
        · rw [List.isEmpty_iff.mp hc]
          exact Or.inr (Or.inl (by simp))
        · right; right
          have : ¬ dcm4cheCmdLen cfg (current ++ [u]) > dcm4che_cmd_budget cfg := by
            intro hgt
            exact hcond ⟨by simpa using hc, hgt⟩
          omega

/-- An argument's rendered length bounds the length of any command
containing it. -/
theorem list2cmdlineArg_length_le_cmdLen (cfg : AppConfig) (b : List PyStr) (u : PyStr)
    (hu : u ∈ b) : (list2cmdlineArg u).length ≤ dcm4cheCmdLen cfg b := by
  unfold dcm4cheCmdLen command_line_len _windows_cmdline_len
  rw [build_cmd_bat_eq]
  simp only [ite_self]
  have hbase : dcm4cheEstimateBaseArgs cfg ≠ [] := by
    unfold dcm4cheEstimateBaseArgs
    cases cfg.dcm4che_use_shell_wrapper <;> simp
  rw [list2cmdline_length _ (by simp [hbase])]
  have h1 : (list2cmdlineArg u).length ≤
      (b.map (fun a => (list2cmdlineArg a).length)).sum := by
    refine List.single_le_sum (fun x _ => Nat.zero_le x) _ ?_
    exact List.mem_map.mpr ⟨u, hu, rfl⟩
  simp only [List.map_append, List.sum_append]
  omega

/-- `list2cmdline` renders an argument without spaces, tabs, quotes or
backslashes verbatim. -/
theorem list2cmdlineArg_plain (arg : PyStr) (hne : arg ≠ [])
    (h : ∀ c ∈ arg, c ≠ '\\' ∧ c ≠ '"' ∧ c ≠ ' ' ∧ c ≠ '\t') :
    list2cmdlineArg arg = arg := by
  have hplain : winArgChars [] arg = arg := by
    clear hne
    induction arg with
    | nil => rfl
    | cons c rest ih =>
        have hc := h c (by simp)
        rw [winArgChars, if_neg hc.1, if_neg hc.2.1]
        simp only [List.nil_append, List.cons.injEq, true_and]
        exact ih (fun x hx => h x (by simp [hx]))
  unfold list2cmdlineArg
  have h1 : arg.contains ' ' = false := by
    simpa using fun hmem => (h ' ' hmem).2.2.1 rfl
  have h2 : arg.contains '\t' = false := by
    simpa using fun hmem => (h '\t' hmem).2.2.2 rfl
  have h3 : arg.isEmpty = false := by simp [List.isEmpty_iff, hne]
  rw [h1, h2, h3]
  simpa using hplain

/-- A unit that alone exceeds the budget ends up in a sub-batch by
itself. -/
theorem splitByCmdLimit_oversized (cfg : AppConfig) (units : List PyStr) (u : PyStr)
    (hu : u ∈ units) (hover : dcm4che_cmd_budget cfg < dcm4cheCmdLen cfg [u]) :
    [u] ∈ _split_dcm4che_inputs_by_cmd_limit cfg units := by
  have hflat := splitByCmdLimit_flatten cfg units []
  have humem : u ∈ (splitByCmdLimit cfg [] units).flatten := by
    rw [hflat]; simpa using hu
  obtain ⟨b, hbmem, hub⟩ := List.mem_flatten.mp humem
  have hne := splitByCmdLimit_ne_nil cfg units [] b hbmem
  have hbud := splitByCmdLimit_budget cfg units [] (Or.inl rfl) b hbmem
  have hle := dcm4cheCmdLen_mem_le cfg b u hub
  have hlen : ¬ 1 < b.length := by
    intro hgt
    have := hbud hgt
    omega
  have : b.length = 1 := by
    cases b with
    | nil => exact absurd rfl hne
    | cons x t =>
        cases t with
        | nil => rfl
        | cons y t2 => simp at hlen
  obtain ⟨a, rfl⟩ := List.length_eq_one.mp this
  have : u = a := by simpa using hub
  subst this
  exact hbmem

/-! ## Claim C8 -/

/-- C8 (deterministic command-length splitting): the ToolF splitter is a
pure function partitioning its input in order with no unit dropped or
duplicated (the concatenation of the sub-batches is the input), every
sub-batch is non-empty, every sub-batch with more than one unit has
command length within the budget, and a unit whose singleton command
already exceeds the budget ends up in a sub-batch by itself. -/
theorem c8_split_partition_and_budget (cfg : AppConfig) (units : List PyStr) :
    (_split_dcm4che_inputs_by_cmd_limit cfg units).flatten = units ∧
    (∀ b ∈ _split_dcm4che_inputs_by_cmd_limit cfg units, b ≠ []) ∧
    (∀ b ∈ _split_dcm4che_inputs_by_cmd_limit cfg units,
        1 < b.length → dcm4cheCmdLen cfg b ≤ dcm4che_cmd_budget cfg) ∧
    (∀ u ∈ units, dcm4che_cmd_budget cfg < dcm4cheCmdLen cfg [u] →
        [u] ∈ _split_dcm4che_inputs_by_cmd_limit cfg units) :=
  ⟨by simpa using splitByCmdLimit_flatten cfg units [],
    fun b hb => splitByCmdLimit_ne_nil cfg units [] b hb,
    fun b hb => splitByCmdLimit_budget cfg units [] (Or.inl rfl) b hb,
    fun u hu hover => splitByCmdLimit_oversized cfg units u hu hover⟩

/-- The oversized witness unit really exceeds the budget on its own. -/
theorem oversizedUnit_over_budget :
    dcm4che_cmd_budget witnessCfg < dcm4cheCmdLen witnessCfg [oversizedUnit] := by
  have hlen : oversizedUnit.length = 7601 := by
    rw [oversizedUnit]; exact List.length_replicate 7601 'a'
  have hplain : list2cmdlineArg oversizedUnit = oversizedUnit := by
    refine list2cmdlineArg_plain _ (fun hnil => by simp [hnil] at hlen) ?_
    intro c hc
    rw [oversizedUnit, List.mem_replicate] at hc
    simp [hc.2]
  have hle := list2cmdlineArg_length_le_cmdLen witnessCfg [oversizedUnit] oversizedUnit (by simp)
  rw [hplain] at hle
  have hb : dcm4che_cmd_budget witnessCfg = 7600 := rfl
  omega

theorem c8_split_partition_and_budget_witness :
    [oversizedUnit] ∈
      _split_dcm4che_inputs_by_cmd_limit witnessCfg [pyStr "a.dcm", oversizedUnit] :=
  (c8_split_partition_and_budget witnessCfg [pyStr "a.dcm", oversizedUnit]).2.2.2
    oversizedUnit (by simp) oversizedUnit_over_budget

/-! ## Claim C2 -/

/-- C2 (batch-length safety): in ToolF `CMD_BAT` mode, a sub-chunk is
spawned (classification runs) only when its measured command-line length
is within the budget; a planned unit that alone exceeds the budget is
still attempted as its own sub-chunk, and since its actual command line
exceeds the budget the chunk fails with `CHUNK_CMD_OVER_LIMIT`
(`Except.error`) carrying the measured length, producing no result rows
for any file of the chunk. -/
theorem c2_cmd_over_limit_safety {α : Type} (cfg : AppConfig) (classifyRows : List PyStr → α)
    (units : List PyStr) :
    (∀ b ∈ _split_dcm4che_inputs_by_cmd_limit cfg units, ∀ rows,
        processCmdBatChunk cfg classifyRows b = Except.ok rows →
        dcm4cheCmdLen cfg b ≤ dcm4che_cmd_budget cfg) ∧
    (∀ u ∈ units, dcm4che_cmd_budget cfg < dcm4cheCmdLen cfg [u] →
        [u] ∈ _split_dcm4che_inputs_by_cmd_limit cfg units ∧
        processCmdBatChunk cfg classifyRows [u] =
          Except.error (dcm4cheCmdLen cfg [u], dcm4che_cmd_budget cfg)) ∧
    (∀ b, dcm4che_cmd_budget cfg < dcm4cheCmdLen cfg b →
        processCmdBatChunk cfg classifyRows b =
          Except.error (dcm4cheCmdLen cfg b, dcm4che_cmd_budget cfg)) := by
  have hproc : ∀ b, dcm4che_cmd_budget cfg < dcm4cheCmdLen cfg b →
      processCmdBatChunk cfg classifyRows b =
        Except.error (dcm4cheCmdLen cfg b, dcm4che_cmd_budget cfg) := by
    intro b hgt
    unfold processCmdBatChunk
    rw [if_pos hgt]
  refine ⟨?_, ?_, hproc⟩
  · intro b _ rows hok
    by_cases hgt : dcm4che_cmd_budget cfg < dcm4cheCmdLen cfg b
    · rw [hproc b hgt] at hok
      exact absurd hok (by simp)
    · omega
  · intro u hu hover
    exact ⟨splitByCmdLimit_oversized cfg units u hu hover, hproc [u] hover⟩

theorem c2_cmd_over_limit_safety_witness :
    processCmdBatChunk witnessCfg (fun _ => (0 : Nat)) [oversizedUnit] =
      Except.error (dcm4cheCmdLen witnessCfg [oversizedUnit], dcm4che_cmd_budget witnessCfg) :=
  (c2_cmd_over_limit_safety witnessCfg (fun _ => (0 : Nat)) [oversizedUnit]).2.2
    [oversizedUnit] oversizedUnit_over_budget

/-! ## Claim C9: helper lemmas on the UID regex and payload predicate -/

/-- Characters of the stripped string come from the original. -/
theorem pyStrip_subset (s : PyStr) : ∀ c ∈ pyStrip s, c ∈ s := by
  intro c hc
  unfold pyStrip at hc
  rw [List.mem_reverse] at hc
  have h1 := (List.dropWhile_sublist (l := (s.dropWhile isPyWs).reverse) isPyWs).subset hc
  rw [List.mem_reverse] at h1
  exact (List.dropWhile_sublist isPyWs).subset h1

theorem uidGroups_none_of_no_dot (s : PyStr) (h : ∀ c ∈ s, c ≠ '.') : uidGroups s = none := by
  cases s with
  | nil => rfl
  | cons c rest =>
      show uidGroupsF (rest.length + 1) (c :: rest) = none
      rw [uidGroupsF]
      rw [if_neg (h c (by simp))]

theorem uidMatchAt_none_of_no_dot (s : PyStr) (h : ∀ c ∈ s, c ≠ '.') : uidMatchAt s = none := by
  unfold uidMatchAt
  have hg : uidGroups (s.dropWhile Char.isDigit) = none := by
    refine uidGroups_none_of_no_dot _ (fun c hc => h c ?_)
    exact (List.dropWhile_sublist Char.isDigit).subset hc
  by_cases hd : (s.takeWhile Char.isDigit).isEmpty <;> simp [hd, hg]

theorem uidSearch_none_of_no_dot : ∀ s : PyStr, (∀ c ∈ s, c ≠ '.') → uidSearch s = none := by
  intro s
  induction s with
  | nil => intro _; rfl
  | cons c t ih =>
      intro h
      rw [uidSearch, uidMatchAt_none_of_no_dot _ h]
      exact ih (fun x hx => h x (by simp [hx]))

/-- A string with no dot admits no `[0-9]+(\.[0-9]+)+` match. -/
theorem sanitize_uid_empty_of_no_dot (s : PyStr) (h : ∀ c ∈ s, c ≠ '.') :
    sanitize_uid s = [] := by
  unfold sanitize_uid
  rw [uidSearch_none_of_no_dot _ (fun c hc => h c (pyStrip_subset s c hc))]

/-- A name that uppercases to `DICOMDIR` contains no dot. -/
theorem dicomdir_no_dot (n : PyStr) (h : pyUpper n = pyStr "DICOMDIR") :
    ∀ c ∈ n, c ≠ '.' := by
  intro c hc heq
  subst heq
  have hmem : Char.toUpper '.' ∈ pyUpper n := List.mem_map_of_mem _ hc
  rw [h] at hmem
  exact absurd hmem (by decide)

/-- A name that uppercases to `DICOMDIR` has an empty pathlib suffix. -/
theorem dicomdir_suffix_empty (n : PyStr) (h : pyUpper n = pyStr "DICOMDIR") :
    pyNameSuffix n = [] := by
  have hnd := dicomdir_no_dot n h
  unfold pyNameSuffix
  have ht : n.reverse.takeWhile (fun c => c ≠ '.') = n.reverse := by
    rw [List.takeWhile_eq_self_iff]
    intro x hx
    simpa using hnd x (List.mem_reverse.mp hx)
  rw [ht]
  simp

/-- Every file in the RQ-order inference map is payload-looking, so a
non-payload file is never assigned an inferred IUID. -/
theorem inferred_lookup_none_of_not_payload (fp : PyStr)
    (hnp : looks_like_dicom_payload_file fp = false) :
    ∀ (batch rq : List PyStr), List.lookup fp (dcm4cheInferredPairs batch rq) = none := by
  intro batch
  induction batch with
  | nil => intro rq; cases rq <;> rfl
  | cons f fs ih =>
      intro rq
      cases rq with
      | nil => rfl
      | cons u rus =>
          by_cases hf : looks_like_dicom_payload_file f
          · have hne : (fp == f) = false := by
              refine beq_eq_false_iff_ne.mpr (fun heq => ?_)
              rw [heq, hf] at hnp
              exact absurd hnp (by simp)
            simp only [dcm4cheInferredPairs, if_pos hf, List.lookup_cons, hne]
            exact ih rus
          · simp only [dcm4cheInferredPairs, if_neg hf]
            exact ih (u :: rus)

/-- C9 (implicit payload-file predicate): a file whose basename
uppercases to `DICOMDIR` is never a DICOM payload; a file whose
lowercased pathlib suffix is `.dcm`, `.dicom` or `.ima` always is; a
file with an empty pathlib suffix is a payload exactly when its name
contains a dotted-numeric UID; and a non-payload file (such as
`DICOMDIR`) is never assigned an IUID by the RQ-order inference. -/
theorem c9_payload_predicate (fp : PyStr) :
    (pyUpper (pyPathName fp) = pyStr "DICOMDIR" →
        looks_like_dicom_payload_file fp = false) ∧
    (pyLower (pyPathSuffix fp) = pyStr ".dcm" ∨ pyLower (pyPathSuffix fp) = pyStr ".dicom" ∨
        pyLower (pyPathSuffix fp) = pyStr ".ima" →
      looks_like_dicom_payload_file fp = true) ∧
    (pyPathSuffix fp = [] →
      (looks_like_dicom_payload_file fp = true ↔ sanitize_uid (pyPathName fp) ≠ [])) ∧
    (∀ (batch rq : List PyStr), looks_like_dicom_payload_file fp = false →
      List.lookup fp (dcm4cheInferredPairs batch rq) = none) := by
  refine ⟨?_, ?_, ?_, ?_⟩
  · intro h
    unfold looks_like_dicom_payload_file
    rw [if_pos h]
  · intro hext
    unfold looks_like_dicom_payload_file
    have hnd : pyUpper (pyPathName fp) ≠ pyStr "DICOMDIR" := by
      intro h
      have hsuf : pyPathSuffix fp = [] := dicomdir_suffix_empty _ h
      rw [hsuf] at hext
      rcases hext with h1 | h1 | h1 <;> exact absurd h1 (by decide)
    rw [if_neg hnd, if_pos hext]
  · intro hsuf
    by_cases hd : pyUpper (pyPathName fp) = pyStr "DICOMDIR"
    · unfold looks_like_dicom_payload_file
      rw [if_pos hd]
      have : sanitize_uid (pyPathName fp) = [] :=
        sanitize_uid_empty_of_no_dot _ (dicomdir_no_dot _ hd)
      simp [this]
    · unfold looks_like_dicom_payload_file
      rw [if_neg hd, hsuf]
      have hne : ¬ (pyLower [] = pyStr ".dcm" ∨ pyLower [] = pyStr ".dicom" ∨
          pyLower [] = pyStr ".ima") := by decide
      rw [if_neg hne]
      by_cases hs : sanitize_uid (pyPathName fp) = []
      · simp [hs, pyLower]
      · simp [hs, pyLower, List.isEmpty_iff]
  · intro batch rq hnp
    exact inferred_lookup_none_of_not_payload fp hnp batch rq

theorem c9_payload_predicate_witness :
    looks_like_dicom_payload_file (pyStr "C:\\exams\\DICOMDIR") = false :=
  (c9_payload_predicate (pyStr "C:\\exams\\DICOMDIR")).1 (by decide)

/-! ## Claim C10 -/

/-- C10 (implicit send-mode normalizer totality): the ToolF send-mode
normalizer always returns `MANIFEST_FILES` or `FOLDERS`; every string
whose trimmed upper-case form is neither `FILES` nor `MANIFEST_FILES` -
including the empty string - maps to `FOLDERS` (not to the documented
default `MANIFEST_FILES`); and with a dcm4che toolkit in the resulting
folder mode the Analyze filter selects every file with reason
`INCLUDED_ALL_FILES`. -/
theorem c10_send_mode_folders_fallback :
    (∀ mode : PyStr, normalize_dcm4che_send_mode mode = pyStr "MANIFEST_FILES" ∨
        normalize_dcm4che_send_mode mode = pyStr "FOLDERS") ∧
    (∀ mode : PyStr, pyUpper (pyStrip mode) ≠ pyStr "FILES" →
        pyUpper (pyStrip mode) ≠ pyStr "MANIFEST_FILES" →
        normalize_dcm4che_send_mode mode = pyStr "FOLDERS") ∧
    normalize_dcm4che_send_mode [] = pyStr "FOLDERS" ∧
    (∀ (cfg : AppConfig) (allowed : List PyStr) (inc : Bool) (entry_name : PyStr),
        cfg.toolkit = pyStr "dcm4che" →
        normalize_dcm4che_send_mode cfg.dcm4che_send_mode = pyStr "FOLDERS" →
        analyzeSelection (analyzeEffectiveRestrict cfg) allowed inc entry_name =
          (true, pyStr "INCLUDED_ALL_FILES")) := by
  refine ⟨?_, ?_, by decide, ?_⟩
  · intro mode
    unfold normalize_dcm4che_send_mode
    by_cases h : pyUpper (pyStrip mode) = pyStr "FILES" ∨
        pyUpper (pyStrip mode) = pyStr "MANIFEST_FILES"
    · left; rw [if_pos h]
    · right; rw [if_neg h]
  · intro mode h1 h2
    unfold normalize_dcm4che_send_mode
    rw [if_neg (by tauto)]
  · intro cfg allowed inc entry_name htk hmode
    have hrestrict : analyzeEffectiveRestrict cfg = false := by
      unfold analyzeEffectiveRestrict
      rw [if_pos ⟨htk, hmode⟩]
    rw [hrestrict]
    unfold analyzeSelection
    simp

theorem c10_send_mode_folders_fallback_witness :
    normalize_dcm4che_send_mode (pyStr "MISCONFIGURED_MODE") = pyStr "FOLDERS" :=
  c10_send_mode_folders_fallback.2.1 (pyStr "MISCONFIGURED_MODE") (by decide) (by decide)

/-! ## Claim C3 -/

/-- C3 counterexample: with one selected unit of quoted length 100 and a
46-character base command, the claimed formula
`floor((budget - base_command_length) / (1 + unit_max_arg_len))` gives
296, but `estimate_dcm4che_batch_max_cmd` returns 1 - the result is
additionally capped by `units_total`. -/
theorem c3_counterexample :
    (estimate_dcm4che_batch_max_cmd c3Cfg 100 1).1 = 1 ∧
    ((WINDOWS_DIRECT_SAFE_MAX_CHARS : Int) -
        (_windows_cmdline_len (dcm4cheEstimateBaseArgs c3Cfg) : Int)) / (1 + 100) = 296 ∧
    (1 : Nat) ≠ 296 := by decide

/-- C3 amended: with the argfile mechanism `batch_max_cmd = units_total`
with source `DCM4CHE_JAVA_ARGFILE`; otherwise the source is
`DCM4CHE_CMD_LIMIT`, the budget is 7 600 with the shell wrapper and
30 000 without, and `batch_max_cmd` equals the claimed floor formula
capped at `units_total` - with the degenerate cases: 0 when no units or
when even one unit does not fit, and `units_total` when the measured
unit length is 0. -/
theorem c3_batch_max_cmd_formula (cfg : AppConfig) (u n : Nat) :
    (cfg.dcm4che_prefer_java_direct = true →
      estimate_dcm4che_batch_max_cmd cfg u n =
        (n, pyStr "DCM4CHE_JAVA_ARGFILE", WINDOWS_DIRECT_SAFE_MAX_CHARS)) ∧
    (cfg.dcm4che_prefer_java_direct = false →
      (estimate_dcm4che_batch_max_cmd cfg u n).2.1 = pyStr "DCM4CHE_CMD_LIMIT" ∧
      (estimate_dcm4che_batch_max_cmd cfg u n).2.2 =
        (if cfg.dcm4che_use_shell_wrapper then WINDOWS_CMD_SAFE_MAX_CHARS
         else WINDOWS_DIRECT_SAFE_MAX_CHARS) ∧
      (n = 0 → (estimate_dcm4che_batch_max_cmd cfg u n).1 = 0) ∧
      (n ≠ 0 → u = 0 → (estimate_dcm4che_batch_max_cmd cfg u n).1 = n) ∧
      (∀ budget base, budget =
          (if cfg.dcm4che_use_shell_wrapper then WINDOWS_CMD_SAFE_MAX_CHARS
           else WINDOWS_DIRECT_SAFE_MAX_CHARS) →
        base = _windows_cmdline_len (dcm4cheEstimateBaseArgs cfg) →
        (n ≠ 0 → u ≠ 0 → base + 1 + u ≤ budget →
          (estimate_dcm4che_batch_max_cmd cfg u n).1 = min n ((budget - base) / (1 + u))) ∧
        (n ≠ 0 → u ≠ 0 → budget < base + 1 + u →
          (estimate_dcm4che_batch_max_cmd cfg u n).1 = 0))) := by
  constructor
  · intro hp
    unfold estimate_dcm4che_batch_max_cmd
    rw [if_pos (by simp [IS_WINDOWS, hp])]
  · intro hp
    unfold estimate_dcm4che_batch_max_cmd
    rw [if_neg (by simp [IS_WINDOWS, hp])]
    simp only [IS_WINDOWS, Bool.true_and]
    by_cases hn : n = 0
    · subst hn
      rw [if_pos rfl]
      refine ⟨rfl, rfl, fun _ => rfl, fun h0 _ => absurd rfl h0, ?_⟩
      intro budget base _ _
      exact ⟨fun h0 => absurd rfl h0, fun h0 => absurd rfl h0⟩
    · rw [if_neg hn]
      by_cases hu : u = 0
      · subst hu
        rw [if_pos rfl]
        refine ⟨rfl, rfl, fun h0 => absurd h0 hn, fun _ _ => rfl, ?_⟩
        intro budget base _ _
        exact ⟨fun _ h0 => absurd rfl h0, fun _ h0 => absurd rfl h0⟩
      · rw [if_neg hu]
        set budget0 : Nat :=
          if cfg.dcm4che_use_shell_wrapper = true then WINDOWS_CMD_SAFE_MAX_CHARS
          else WINDOWS_DIRECT_SAFE_MAX_CHARS with hbudget0
        set base0 := _windows_cmdline_len (dcm4cheEstimateBaseArgs cfg) with hbase0
        by_cases hfit : base0 + 1 + u ≤ budget0
        · rw [if_neg (by omega)]
          refine ⟨rfl, rfl, fun h0 => absurd h0 hn, fun _ h0 => absurd h0 hu, ?_⟩
          intro budget base hb1 hb2
          refine ⟨fun _ _ _ => ?_, fun _ _ hlt => by omega⟩
          subst hb1; subst hb2
          simp only []
          have hc1 : (budget0 : Int) - (base0 : Int) = ((budget0 - base0 : Nat) : Int) := by
            omega
          have hc2 : (1 : Int) + (u : Int) = ((1 + u : Nat) : Int) := by push_cast; ring
          rw [hc1, hc2, ← Int.natCast_div, Int.toNat_natCast]
        · rw [if_pos (by omega)]
          refine ⟨rfl, rfl, fun h0 => absurd h0 hn, fun _ h0 => absurd h0 hu, ?_⟩
          intro budget base hb1 hb2
          subst hb1; subst hb2
          exact ⟨fun _ _ hle => by omega, fun _ _ _ => rfl⟩

theorem c3_batch_max_cmd_formula_witness :
    estimate_dcm4che_batch_max_cmd witnessCfg 120 5 =
      (5, pyStr "DCM4CHE_JAVA_ARGFILE", WINDOWS_DIRECT_SAFE_MAX_CHARS) :=
  (c3_batch_max_cmd_formula witnessCfg 120 5).1 rfl

/-! ## Claim C4 -/

/-- The per-item inner fold only appends `ITEM`-reason checkpoints. -/
theorem sendItemFold_inv (run : PyStr) (fm : Bool) (unit : Nat) :
    ∀ (chunk : List PyStr) (item : Nat) (acc : List SendCheckpoint),
      (∀ cp ∈ acc, checkpointShape cp) →
      (∀ cp ∈ (chunk.foldl
          (fun (p : Nat × List SendCheckpoint) _ =>
            (p.1 + 1, p.2 ++ [_write_send_checkpoint run fm (p.1 + 1) unit (pyStr "ITEM")]))
          (item, acc)).2, checkpointShape cp) ∧
      ((chunk.foldl
          (fun (p : Nat × List SendCheckpoint) _ =>
            (p.1 + 1, p.2 ++ [_write_send_checkpoint run fm (p.1 + 1) unit (pyStr "ITEM")]))
          (item, acc)).2.filter
          (fun cp => cp.checkpoint_reason = pyStr "CHUNK_SYNC")).length =
        (acc.filter (fun cp => cp.checkpoint_reason = pyStr "CHUNK_SYNC")).length := by
  intro chunk
  induction chunk with
  | nil => intro item acc hacc; exact ⟨hacc, rfl⟩
  | cons x xs ih =>
      intro item acc hacc
      simp only [List.foldl_cons]
      have hshape : checkpointShape (_write_send_checkpoint run fm (item + 1) unit (pyStr "ITEM")) :=
        ⟨rfl, Or.inl rfl⟩
      have hacc2 : ∀ cp ∈ acc ++ [_write_send_checkpoint run fm (item + 1) unit (pyStr "ITEM")],
          checkpointShape cp := by
        intro cp hcp
        rcases List.mem_append.mp hcp with h1 | h1
        · exact hacc cp h1
        · rw [List.mem_singleton.mp h1]; exact hshape
      have := ih (item + 1) (acc ++ [_write_send_checkpoint run fm (item + 1) unit (pyStr "ITEM")]) hacc2
      refine ⟨this.1, ?_⟩
      rw [this.2, List.filter_append]
      have hone : List.filter (fun cp => decide (cp.checkpoint_reason = pyStr "CHUNK_SYNC"))
          [_write_send_checkpoint run fm (item + 1) unit (pyStr "ITEM")] = [] := by
        have hno : ¬ (_write_send_checkpoint run fm (item + 1) unit
            (pyStr "ITEM")).checkpoint_reason = pyStr "CHUNK_SYNC" := by
          intro hcontra
          exact absurd (hcontra : pyStr "ITEM" = pyStr "CHUNK_SYNC")
            (show ¬ pyStr "ITEM" = pyStr "CHUNK_SYNC" by decide)
        simp [List.filter_cons, hno]
      rw [hone, List.append_nil]

/-- Trace invariant over whole sub-chunks: all checkpoints have mode
`ITEM`, and exactly one `CHUNK_SYNC`-reason checkpoint is appended per
completed sub-chunk. -/
theorem sendChunkTrace_inv (run : PyStr) (fm : Bool) :
    ∀ (chunks : List (List PyStr)) (item unit : Nat) (acc : List SendCheckpoint),
      (∀ cp ∈ acc, checkpointShape cp) →
      (∀ cp ∈ (chunks.foldl (sendChunkTraceStep run fm) (item, unit, acc)).2.2,
          checkpointShape cp) ∧
      ((chunks.foldl (sendChunkTraceStep run fm) (item, unit, acc)).2.2.filter
          (fun cp => cp.checkpoint_reason = pyStr "CHUNK_SYNC")).length =
        (acc.filter (fun cp => cp.checkpoint_reason = pyStr "CHUNK_SYNC")).length +
          chunks.length := by
  intro chunks
  induction chunks with
  | nil => intro item unit acc hacc; exact ⟨hacc, by simp⟩
  | cons c cs ih =>
      intro item unit acc hacc
      simp only [List.foldl_cons, List.length_cons]
      have hinner := sendItemFold_inv run fm unit c item acc hacc
      set itemAcc := c.foldl
        (fun (p : Nat × List SendCheckpoint) _ =>
          (p.1 + 1, p.2 ++ [_write_send_checkpoint run fm (p.1 + 1) unit (pyStr "ITEM")]))
        (item, acc) with hitemAcc
      have hshape : checkpointShape
          (_write_send_checkpoint run fm itemAcc.1 (unit + c.length) (pyStr "CHUNK_SYNC")) :=
        ⟨rfl, Or.inr rfl⟩
      have hacc2 : ∀ cp ∈ itemAcc.2 ++
          [_write_send_checkpoint run fm itemAcc.1 (unit + c.length) (pyStr "CHUNK_SYNC")],
          checkpointShape cp := by
        intro cp hcp
        rcases List.mem_append.mp hcp with h1 | h1
        · exact hinner.1 cp h1
        · rw [List.mem_singleton.mp h1]; exact hshape
      have hstep : sendChunkTraceStep run fm (item, unit, acc) c =
          (itemAcc.1, unit + c.length,
            itemAcc.2 ++
              [_write_send_checkpoint run fm itemAcc.1 (unit + c.length) (pyStr "CHUNK_SYNC")]) := rfl
      rw [hstep]
      have := ih itemAcc.1 (unit + c.length)
        (itemAcc.2 ++
          [_write_send_checkpoint run fm itemAcc.1 (unit + c.length) (pyStr "CHUNK_SYNC")]) hacc2
      refine ⟨this.1, ?_⟩
      rw [this.2, List.filter_append, List.length_append, hinner.2]
      have hone : List.filter (fun cp => decide (cp.checkpoint_reason = pyStr "CHUNK_SYNC"))
          [_write_send_checkpoint run fm itemAcc.1 (unit + c.length) (pyStr "CHUNK_SYNC")] =
          [_write_send_checkpoint run fm itemAcc.1 (unit + c.length) (pyStr "CHUNK_SYNC")] := by
        have hyes : (_write_send_checkpoint run fm itemAcc.1 (unit + c.length)
            (pyStr "CHUNK_SYNC")).checkpoint_reason = pyStr "CHUNK_SYNC" := rfl
        simp [List.filter_cons, hyes]
      rw [hone]
      simp only [List.length_cons, List.length_nil]
      omega

/-- C4 counterexample: the checkpoint written right after a completed
sub-chunk carries `checkpoint_reason = CHUNK_SYNC` but its
`checkpoint_mode` field is `ITEM`, not `CHUNK_SYNC` - the closure
hard-codes `"checkpoint_mode": "ITEM"` for every checkpoint. -/
theorem c4_counterexample :
    (sendChunkTrace (pyStr "r") true [[pyStr "f"]]).getLast?.map
        SendCheckpoint.checkpoint_reason = some (pyStr "CHUNK_SYNC") ∧
    (sendChunkTrace (pyStr "r") true [[pyStr "f"]]).getLast?.map
        SendCheckpoint.checkpoint_mode = some (pyStr "ITEM") ∧
    pyStr "ITEM" ≠ pyStr "CHUNK_SYNC" := by decide

/-- C4 amended: after every completed sub-chunk the Send workflow does
write a checkpoint, but the `ITEM` / `CHUNK_SYNC` distinction lives in
`checkpoint_reason`: every checkpoint written by Send has
`checkpoint_mode = ITEM`, `checkpoint_reason` ranges over
`{ITEM, CHUNK_SYNC}`, and exactly one `CHUNK_SYNC`-reason checkpoint is
emitted per completed sub-chunk. -/
theorem c4_checkpoint_mode_and_chunk_sync (run : PyStr) (fm : Bool)
    (chunks : List (List PyStr)) :
    (∀ cp ∈ sendChunkTrace run fm chunks, cp.checkpoint_mode = pyStr "ITEM") ∧
    (∀ cp ∈ sendChunkTrace run fm chunks,
        cp.checkpoint_reason = pyStr "ITEM" ∨ cp.checkpoint_reason = pyStr "CHUNK_SYNC") ∧
    ((sendChunkTrace run fm chunks).filter
        (fun cp => cp.checkpoint_reason = pyStr "CHUNK_SYNC")).length = chunks.length := by
  have h := sendChunkTrace_inv run fm chunks 0 0 [] (by intro cp hcp; simp at hcp)
  exact ⟨fun cp hcp => (h.1 cp hcp).1, fun cp hcp => (h.1 cp hcp).2, by simpa using h.2⟩

theorem c4_checkpoint_mode_and_chunk_sync_witness :
    ((sendChunkTrace (pyStr "r2") true [[pyStr "f1"], [pyStr "f2", pyStr "f3"]]).filter
        (fun cp => cp.checkpoint_reason = pyStr "CHUNK_SYNC")).length = 2 := by
  have h := (c4_checkpoint_mode_and_chunk_sync (pyStr "r2") true
    [[pyStr "f1"], [pyStr "f2", pyStr "f3"]]).2.2
  simpa using h

/-! ## Claim C6 -/

/-- All-`SENT_OK` send rows leave the warn/fail recount untouched. -/
theorem sendWarnFailCounts_all_ok :
    ∀ (l : List PyStr) (c : Nat × Nat), (∀ s ∈ l, s = pyStr "SENT_OK") →
      l.foldl
        (fun c st =>
          if st = pyStr "NON_DICOM" ∨ st = pyStr "UNSUPPORTED_DICOM_OBJECT" ∨
              st = pyStr "SENT_UNKNOWN"
          then (c.1 + 1, c.2)
          else if st = pyStr "SEND_FAIL" then (c.1, c.2 + 1)
          else c) c = c := by
  intro l
  induction l with
  | nil => intro c _; rfl
  | cons s t ih =>
      intro c h
      have hs := h s (by simp)
      subst hs
      rw [List.foldl_cons, if_neg (by decide), if_neg (by decide)]
      exact ih c (fun x hx => h x (by simp [hx]))

theorem valCountsStep_of_found (c : ValCounts) (o : Nat × PyStr) (h1 : o.1 = 1) :
    valCountsStep c o = { c with ok := c.ok + 1 } := by
  unfold valCountsStep; rw [if_pos h1]

theorem valCountsStep_of_api_error (c : ValCounts) (o : Nat × PyStr) (h1 : ¬ o.1 = 1)
    (h2 : o.2 = pyStr "ERR" ∨ o.2 = []) :
    valCountsStep c o = { c with apiErr := c.apiErr + 1 } := by
  unfold valCountsStep; rw [if_neg h1, if_pos h2]

/-- All-`OK` REST outcomes add nothing to `miss`/`apiErr`. -/
theorem valCounts_all_ok :
    ∀ (outcomes : List (Nat × PyStr)) (c : ValCounts),
      (∀ o ∈ outcomes, classifyRestLookup o.1 o.2 = pyStr "OK") →
      (outcomes.foldl valCountsStep c).miss = c.miss ∧
        (outcomes.foldl valCountsStep c).apiErr = c.apiErr := by
  intro outcomes
  induction outcomes with
  | nil => intro c _; exact ⟨rfl, rfl⟩
  | cons o t ih =>
      intro c h
      have ho := h o (by simp)
      have h1 : o.1 = 1 := by
        by_contra hne
        unfold classifyRestLookup at ho
        rw [if_neg hne] at ho
        by_cases h2 : o.2 = pyStr "ERR" ∨ o.2 = []
        · rw [if_pos h2] at ho; exact absurd ho (by decide)
        · rw [if_neg h2] at ho; exact absurd ho (by decide)
      rw [List.foldl_cons, valCountsStep_of_found c o h1]
      exact ih _ (fun x hx => h x (by simp [hx]))

/-- All-`API_ERROR` REST outcomes add nothing to `ok` and count one
`apiErr` each. -/
theorem valCounts_all_api_error :
    ∀ (outcomes : List (Nat × PyStr)) (c : ValCounts),
      (∀ o ∈ outcomes, classifyRestLookup o.1 o.2 = pyStr "API_ERROR") →
      (outcomes.foldl valCountsStep c).ok = c.ok ∧
        (outcomes.foldl valCountsStep c).apiErr = c.apiErr + outcomes.length := by
  intro outcomes
  induction outcomes with
  | nil => intro c _; exact ⟨rfl, rfl⟩
  | cons o t ih =>
      intro c h
      have ho := h o (by simp)
      have h1 : ¬ o.1 = 1 := by
        intro he
        unfold classifyRestLookup at ho
        rw [if_pos he] at ho
        exact absurd ho (by decide)
      have h2 : o.2 = pyStr "ERR" ∨ o.2 = [] := by
        by_contra hn
        unfold classifyRestLookup at ho
        rw [if_neg h1, if_neg hn] at ho
        exact absurd ho (by decide)
      rw [List.foldl_cons, valCountsStep_of_api_error c o h1 h2]
      have := ih { c with apiErr := c.apiErr + 1 } (fun x hx => h x (by simp [hx]))
      refine ⟨this.1, ?_⟩
      rw [this.2]
      simp only [List.length_cons]
      omega

/-- C6 counterexample: with a `SEND_FAIL` row among the send results,
all REST lookups classifying `OK` still yields `PASS_WITH_WARNINGS`,
not the claimed `PASS` - the final status also counts send-level
failures. -/
theorem c6_counterexample :
    classifyRestLookup 1 (pyStr "200") = pyStr "OK" ∧
    runValidationStatus [pyStr "SENT_OK", pyStr "SEND_FAIL"] [(1, pyStr "200")] =
      pyStr "PASS_WITH_WARNINGS" ∧
    pyStr "PASS_WITH_WARNINGS" ≠ pyStr "PASS" := by decide

/-- C6 amended: a run whose send rows are all `SENT_OK` has a zero
send-fail recount; with no send-fail rows and all lookups `OK` the final
status is `PASS`; all lookups `API_ERROR` (with at least one query)
gives `FAIL` regardless of the other counters; and any mixed lookup
outcome (some `OK`, some `NOT_FOUND`/`API_ERROR`) gives
`PASS_WITH_WARNINGS`. -/
theorem c6_reconciliation_status (send_statuses : List PyStr)
    (outcomes : List (Nat × PyStr)) :
    ((∀ s ∈ send_statuses, s = pyStr "SENT_OK") → (sendWarnFailCounts send_statuses).2 = 0) ∧
    ((sendWarnFailCounts send_statuses).2 = 0 →
      (∀ o ∈ outcomes, classifyRestLookup o.1 o.2 = pyStr "OK") →
      runValidationStatus send_statuses outcomes = pyStr "PASS") ∧
    (outcomes ≠ [] →
      (∀ o ∈ outcomes, classifyRestLookup o.1 o.2 = pyStr "API_ERROR") →
      runValidationStatus send_statuses outcomes = pyStr "FAIL") ∧
    (0 < (valCounts outcomes).ok →
      0 < (valCounts outcomes).apiErr + (valCounts outcomes).miss →
      runValidationStatus send_statuses outcomes = pyStr "PASS_WITH_WARNINGS") := by
  refine ⟨?_, ?_, ?_, ?_⟩
  · intro h
    unfold sendWarnFailCounts
    rw [sendWarnFailCounts_all_ok send_statuses (0, 0) h]
  · intro hfail hok
    have hcounts := valCounts_all_ok outcomes ⟨0, 0, 0⟩ hok
    unfold runValidationStatus validationFinalStatus
    have hmiss : (valCounts outcomes).miss = 0 := hcounts.1
    have herr : (valCounts outcomes).apiErr = 0 := hcounts.2
    rw [if_neg (by omega), if_neg (by omega)]
  · intro hne herrs
    have hcounts := valCounts_all_api_error outcomes ⟨0, 0, 0⟩ herrs
    have hok : (valCounts outcomes).ok = 0 := hcounts.1
    have herr : (valCounts outcomes).apiErr = outcomes.length := by
      have := hcounts.2; simpa using this
    have hpos : 0 < outcomes.length := by
      cases outcomes with
      | nil => exact absurd rfl hne
      | cons _ _ => simp
    unfold runValidationStatus validationFinalStatus
    rw [if_pos (by omega)]
  · intro hok hbad
    unfold runValidationStatus validationFinalStatus
    rw [if_neg (by omega), if_pos (by omega)]

theorem c6_reconciliation_status_witness :
    runValidationStatus [pyStr "SENT_OK"] [(1, pyStr "200")] = pyStr "PASS" :=
  (c6_reconciliation_status [pyStr "SENT_OK"] [(1, pyStr "200")]).2.1
    (by decide) (by decide)

/-! ## Claim C1: dcm4che post-stream classification lemmas -/

/-- Appending on the right preserves nonemptiness. -/
theorem pyAppend_length_pos {xs : PyStr} (ys : PyStr) (h : 0 < xs.length) :
    0 < (xs ++ ys).length := by
  rw [List.length_append]; omega

/-- The `dcm4che parse: ...` base detail is never empty. -/
theorem dcm4cheDetail1_length_pos (m : PyStr) (info : Dcm4cheBatchOut) (rq : List PyStr)
    (ec : Int) (merr : PyStr) : 0 < (dcm4cheDetail1 m info rq ec merr).length := by
  have hbase : 0 < (pyStr "dcm4che parse: iuid_mode=").length := by decide
  unfold dcm4cheDetail1
  simp only []
  split
  all_goals simp only [List.length_append]
  all_goals omega

/-- The override / inferred / empty-extract appends preserve
nonemptiness of the detail. -/
theorem dcm4cheDetail3_length_pos (d1 p s2 : PyStr) (u : Prop) [Decidable u]
    (h : 0 < d1.length) : 0 < (dcm4cheDetail3 d1 p s2 u).length := by
  unfold dcm4cheDetail3
  simp only []
  repeat' split
  all_goals first
    | omega
    | (simp only [List.length_append]; omega)

/-- The status detail of a classified file is never empty: every branch
extends the `dcm4che parse: iuid_mode=...` prefix. -/
theorem dcm4cheClassifyFile_detail_ne_nil (mode : PyStr) (info : Dcm4cheBatchOut)
    (im : List (PyStr × PyStr)) (exit_code : Int) (meta : MetaOut) (fp : PyStr) :
    (dcm4cheClassifyFile mode info im exit_code meta fp).status_detail ≠ [] := by
  apply List.ne_nil_of_length_pos
  unfold dcm4cheClassifyFile
  simp only []
  generalize normalize_uid_candidate meta.iuid = u0
  generalize normalize_uid_candidate (pyPathName fp) = u1
  generalize looks_like_dicom_payload_file fp = pb
  generalize (List.lookup fp im).getD [] = inf
  generalize dcm4cheRqList info = rq
  generalize info.ok_iuids = oks
  generalize info.err_iuids = errs
  generalize meta.err = merr
  generalize (if List.isEmpty u0 = true ∧ pb = true then u1 else u0) = s1
  generalize (if ¬List.isEmpty inf = true ∧
      (List.isEmpty s1 = true ∨ s1 ∉ oks ∧ s1 ∉ errs ∧ s1 ∉ rq) then inf else s1) = s2
  by_cases h1 : ¬List.isEmpty s2 = true ∧ s2 ∈ oks
  · rw [if_pos h1]
    apply dcm4cheDetail3_length_pos
    apply dcm4cheDetail1_length_pos
  rw [if_neg h1]
  by_cases h2 : ¬List.isEmpty s2 = true ∧ s2 ∈ errs
  · rw [if_pos h2]
    repeat' apply pyAppend_length_pos
    apply dcm4cheDetail3_length_pos
    apply dcm4cheDetail1_length_pos
  rw [if_neg h2]
  by_cases h3 : ¬List.isEmpty s2 = true ∧ s2 ∈ rq
  · rw [if_pos h3]
    apply dcm4cheDetail3_length_pos
    apply dcm4cheDetail1_length_pos
  rw [if_neg h3]
  by_cases h4 : exit_code ≠ 0
  · rw [if_pos h4]
    apply dcm4cheDetail3_length_pos
    apply dcm4cheDetail1_length_pos
  rw [if_neg h4]
  by_cases h5 : ¬List.isEmpty s2 = true ∧ s2 ∉ oks ∧ s2 ∉ errs ∧ s2 ∉ rq
  · rw [if_pos h5]
    by_cases h7 : List.isEmpty u0 = true ∧ pb = true ∧ ¬List.isEmpty s1 = true
    · rw [if_pos h7]
      repeat' apply pyAppend_length_pos
      apply dcm4cheDetail3_length_pos
      apply dcm4cheDetail1_length_pos
    · rw [if_neg h7]
      repeat' apply pyAppend_length_pos
      apply dcm4cheDetail3_length_pos
      apply dcm4cheDetail1_length_pos
  rw [if_neg h5]
  by_cases h6 : ¬List.isEmpty s2 = true
  · rw [if_pos h6]
    repeat' apply pyAppend_length_pos
    apply dcm4cheDetail3_length_pos
    apply dcm4cheDetail1_length_pos
  rw [if_neg h6]
  by_cases h8 : List.isEmpty u0 = true ∧ pb = true ∧ ¬List.isEmpty s1 = true
  · rw [if_pos h8]
    repeat' apply pyAppend_length_pos
    apply dcm4cheDetail3_length_pos
    apply dcm4cheDetail1_length_pos
  · rw [if_neg h8]
    repeat' apply pyAppend_length_pos
    apply dcm4cheDetail3_length_pos
    apply dcm4cheDetail1_length_pos

/-- The classification of a file whose normalized metadata IUID is
non-empty and acknowledged in `ok_iuids`: `SENT_OK` with
`OK_FROM_STORESCU`. -/
theorem dcm4cheClassifyFile_ok (mode : PyStr) (info : Dcm4cheBatchOut)
    (im : List (PyStr × PyStr)) (exit_code : Int) (meta : MetaOut) (fp : PyStr)
    (hne : normalize_uid_candidate meta.iuid ≠ [])
    (hok : normalize_uid_candidate meta.iuid ∈ info.ok_iuids) :
    (dcm4cheClassifyFile mode info im exit_code meta fp).send_status = pyStr "SENT_OK" ∧
    (dcm4cheClassifyFile mode info im exit_code meta fp).extract_status =
      pyStr "OK_FROM_STORESCU" := by
  unfold dcm4cheClassifyFile
  simp only []
  have h1 : ¬ ((normalize_uid_candidate meta.iuid).isEmpty = true ∧
      looks_like_dicom_payload_file fp = true) :=
    fun hc => hne (List.isEmpty_iff.mp hc.1)
  simp only [if_neg h1]
  have hov : ¬ (¬ ((List.lookup fp im).getD []).isEmpty = true ∧
      ((normalize_uid_candidate meta.iuid).isEmpty = true ∨
        (normalize_uid_candidate meta.iuid ∉ info.ok_iuids ∧
          normalize_uid_candidate meta.iuid ∉ info.err_iuids ∧
          normalize_uid_candidate meta.iuid ∉ dcm4cheRqList info))) :=
    fun hc => hc.2.elim (fun h => hne (List.isEmpty_iff.mp h)) (fun h => h.1 hok)
  simp only [if_neg hov]
  have hc1 : ¬ (normalize_uid_candidate meta.iuid).isEmpty = true ∧
      normalize_uid_candidate meta.iuid ∈ info.ok_iuids :=
    ⟨fun hc => hne (List.isEmpty_iff.mp hc), hok⟩
  simp only [if_pos hc1]
  exact ⟨trivial, trivial⟩

/-- The classification of a non-payload file (such as `DICOMDIR`) whose
metadata IUID is not acknowledged, with clean responses and exit code 0:
`SENT_UNKNOWN`. -/
theorem dcm4cheClassifyFile_unknown (mode : PyStr) (info : Dcm4cheBatchOut)
    (im : List (PyStr × PyStr)) (meta : MetaOut) (fp : PyStr)
    (hnpf : looks_like_dicom_payload_file fp = false)
    (him : List.lookup fp im = none)
    (hsrcnot : normalize_uid_candidate meta.iuid ∉ info.ok_iuids)
    (herr : info.err_iuids = [])
    (hrq : ∀ u ∈ dcm4cheRqList info, u ∈ info.ok_iuids) :
    (dcm4cheClassifyFile mode info im 0 meta fp).send_status = pyStr "SENT_UNKNOWN" := by
  unfold dcm4cheClassifyFile
  simp only [herr]
  have h1 : ¬ ((normalize_uid_candidate meta.iuid).isEmpty = true ∧
      looks_like_dicom_payload_file fp = true) := by
    intro hc
    rw [hnpf] at hc
    exact absurd hc.2 (by simp)
  simp only [if_neg h1]
  have hov : ¬ (¬ ((List.lookup fp im).getD []).isEmpty = true ∧
      ((normalize_uid_candidate meta.iuid).isEmpty = true ∨
        (normalize_uid_candidate meta.iuid ∉ info.ok_iuids ∧
          normalize_uid_candidate meta.iuid ∉ ([] : List PyStr) ∧
          normalize_uid_candidate meta.iuid ∉ dcm4cheRqList info))) := by
    intro hc
    exact hc.1 (by rw [him]; rfl)
  simp only [if_neg hov]
  have hc1 : ¬ (¬ (normalize_uid_candidate meta.iuid).isEmpty = true ∧
      normalize_uid_candidate meta.iuid ∈ info.ok_iuids) :=
    fun hc => hsrcnot hc.2
  simp only [if_neg hc1]
  have hc2 : ¬ (¬ (normalize_uid_candidate meta.iuid).isEmpty = true ∧
      normalize_uid_candidate meta.iuid ∈ ([] : List PyStr)) :=
    fun hc => absurd hc.2 (List.not_mem_nil _)
  simp only [if_neg hc2]
  have hc3 : ¬ (¬ (normalize_uid_candidate meta.iuid).isEmpty = true ∧
      normalize_uid_candidate meta.iuid ∈ dcm4cheRqList info) :=
    fun hc => hsrcnot (hrq _ hc.2)
  simp only [if_neg hc3]
  have hc4 : ¬ ((0 : Int) ≠ 0) := fun hc => hc rfl
  simp only [if_neg hc4]
  split
  · rfl
  · split <;> rfl

/-- C1 counterexample: a batch `[a.dcm, DICOMDIR]` where `ok_iuids`
contains exactly the payload file's IUID and nothing else (empty
`err_iuids`, no leftover `rq_iuids`), but the child exits with code 2:
the payload file is `SENT_OK` while `DICOMDIR` is classified
`SEND_FAIL / PROCESS_EXIT_FAIL`, not the claimed `SENT_UNKNOWN` - the
claim omits the process-exit condition of the classification chain. -/
theorem c1_counterexample :
    c1Info.err_iuids = [] ∧
    dcm4cheRqList c1Info = c1Info.ok_iuids ∧
    (dcm4chePostStreamRows (pyStr "REALTIME") c1Info 2 c1Meta [] c1Batch).map
        (fun p => (p.2.send_status, p.2.extract_status)) =
      [(pyStr "SENT_OK", pyStr "OK_FROM_STORESCU"),
       (pyStr "SEND_FAIL", pyStr "PROCESS_EXIT_FAIL")] ∧
    pyStr "SEND_FAIL" ≠ pyStr "SENT_UNKNOWN" := by decide

/-- C1 amended: for a ToolF sub-chunk whose parsed output acknowledges
in `ok_iuids` the (non-empty) IUID of every payload-looking file, holds
no non-payload file's IUID, has empty `err_iuids` and no request IUID
left unacknowledged, and whose child exited with code 0, the
post-stream classification assigns `SENT_OK` with `OK_FROM_STORESCU` to
every payload-looking file and `SENT_UNKNOWN` with a non-empty
`status_detail` to every non-payload file such as `DICOMDIR`. -/
theorem c1_toolf_correlation (mode : PyStr) (info : Dcm4cheBatchOut)
    (meta : PyStr → MetaOut) (batch_files : List PyStr)
    (herr : info.err_iuids = [])
    (hrq : ∀ u ∈ dcm4cheRqList info, u ∈ info.ok_iuids)
    (hpay : ∀ fp ∈ batch_files, looks_like_dicom_payload_file fp = true →
        normalize_uid_candidate (meta fp).iuid ≠ [] ∧
        normalize_uid_candidate (meta fp).iuid ∈ info.ok_iuids)
    (hnon : ∀ fp ∈ batch_files, looks_like_dicom_payload_file fp = false →
        normalize_uid_candidate (meta fp).iuid ∉ info.ok_iuids) :
    ∀ p ∈ dcm4chePostStreamRows mode info 0 meta [] batch_files,
      (looks_like_dicom_payload_file p.1 = true →
          p.2.send_status = pyStr "SENT_OK" ∧
          p.2.extract_status = pyStr "OK_FROM_STORESCU") ∧
      (looks_like_dicom_payload_file p.1 = false →
          p.2.send_status = pyStr "SENT_UNKNOWN" ∧ p.2.status_detail ≠ []) := by
  intro p hp
  unfold dcm4chePostStreamRows at hp
  simp only [] at hp
  rw [List.filter_eq_self.mpr (fun a _ => by simp)] at hp
  obtain ⟨fp, hmem, rfl⟩ := List.mem_map.mp hp
  constructor
  · intro hpayf
    obtain ⟨hne, hok⟩ := hpay fp hmem hpayf
    exact dcm4cheClassifyFile_ok mode info _ 0 (meta fp) fp hne hok
  · intro hnpf
    refine ⟨?_, dcm4cheClassifyFile_detail_ne_nil mode info _ 0 (meta fp) fp⟩
    exact dcm4cheClassifyFile_unknown mode info _ (meta fp) fp hnpf
      (inferred_lookup_none_of_not_payload fp hnpf batch_files (dcm4cheRqList info))
      (hnon fp hmem hnpf) herr hrq

theorem c1_toolf_correlation_witness :
    (dcm4cheClassifyFile (pyStr "REALTIME") c1Info
        (dcm4cheInferredPairs c1Batch (dcm4cheRqList c1Info)) 0 (c1Meta c1F2) c1F2).send_status =
      pyStr "SENT_UNKNOWN" := by
  have h := c1_toolf_correlation (pyStr "REALTIME") c1Info c1Meta c1Batch rfl
    (by decide) (by decide) (by decide)
    (c1F2, dcm4cheClassifyFile (pyStr "REALTIME") c1Info
      (dcm4cheInferredPairs c1Batch (dcm4cheRqList c1Info)) 0 (c1Meta c1F2) c1F2)
    (by decide)
  exact (h.2 (by decide)).1

/-! ## Claim C5: dict lemmas and the untouched-file invariant -/

theorem dictInsert_lookup_self {β : Type} (m : List (PyStr × β)) (k : PyStr) (v : β) :
    List.lookup k (dictInsert m k v) = some v := by
  unfold dictInsert
  by_cases h : (List.lookup k m).isSome
  · rw [if_pos h]
    induction m with
    | nil => simp [List.lookup] at h
    | cons p rest ih =>
        obtain ⟨a, b⟩ := p
        by_cases hak : a = k
        · subst hak
          simp [List.lookup_cons]
        · have hk : (k == a) = false := beq_eq_false_iff_ne.mpr (fun he => hak he.symm)
          simp only [List.map_cons, if_neg hak, List.lookup_cons, hk]
          rw [List.lookup_cons, hk] at h
          exact ih h
  · rw [if_neg h]
    rw [List.lookup_append, Option.not_isSome_iff_eq_none.mp h]
    simp [List.lookup_cons]

theorem dictInsert_lookup_other {β : Type} (m : List (PyStr × β)) (k k' : PyStr) (v : β)
    (hne : k' ≠ k) : List.lookup k' (dictInsert m k v) = List.lookup k' m := by
  unfold dictInsert
  by_cases h : (List.lookup k m).isSome
  · rw [if_pos h]
    clear h
    induction m with
    | nil => rfl
    | cons p rest ih =>
        obtain ⟨a, b⟩ := p
        by_cases hak : a = k
        · subst hak
          have hk : (k' == a) = false := beq_eq_false_iff_ne.mpr hne
          simp [List.lookup_cons, hk, ih]
        · simp only [List.map_cons, if_neg hak, List.lookup_cons]
          cases hb : (k' == a) with
          | true => rfl
          | false => exact ih
  · rw [if_neg h]
    rw [List.lookup_append]
    have hk : (k' == k) = false := beq_eq_false_iff_ne.mpr hne
    simp [List.lookup_cons, hk]

theorem dictSetdefault_lookup_other {β : Type} (m : List (PyStr × β)) (k k' : PyStr) (v : β)
    (hne : k' ≠ k) : List.lookup k' (dictSetdefault m k v) = List.lookup k' m := by
  unfold dictSetdefault
  by_cases h : (List.lookup k m).isSome
  · rw [if_pos h]
  · rw [if_neg h, List.lookup_append]
    have hk : (k' == k) = false := beq_eq_false_iff_ne.mpr hne
    simp [List.lookup_cons, hk]

theorem dictSetdefault_lookup_some {β : Type} (m : List (PyStr × β)) (k k' : PyStr) (v w : β)
    (h : List.lookup k' m = some w) :
    List.lookup k' (dictSetdefault m k v) = some w := by
  unfold dictSetdefault
  by_cases hk : (List.lookup k m).isSome
  · rw [if_pos hk]; exact h
  · rw [if_neg hk, List.lookup_append, h]; rfl

theorem dcmtkParseLine_untouched (fp line : PyStr) (st : DcmtkParseState)
    (hfp : fp ≠ []) (hnt : ¬ dcmtkTouches line fp) (hinv : dcmtkUntouched fp st) :
    dcmtkUntouched fp (dcmtkParseLine st line) := by
  obtain ⟨hres, hcur, hpend⟩ := hinv
  have hrsp : ∀ st2 : DcmtkParseState, dcmtkUntouched fp st2 →
      dcmtkUntouched fp (dcmtkRspCheck st2 line) := by
    intro st2 hst2
    obtain ⟨h1, h2, h3⟩ := hst2
    unfold dcmtkRspCheck
    cases hr : reSearch matchStoreRspAt line with
    | none => exact ⟨h1, h2, h3⟩
    | some g =>
        simp only []
        by_cases hc : ¬ st2.current_file.isEmpty = true
        · rw [if_pos hc]
          refine ⟨?_, h2, fun he => hfp he.symm⟩
          rw [dictInsert_lookup_other _ _ _ _ (fun he => h2 he.symm)]
          exact h1
        · rw [if_neg hc]; exact ⟨h1, h2, h3⟩
  unfold dcmtkParseLine
  cases h1 : reSearch matchSendingFileAt line with
  | some g =>
      simp only []
      have hgne : pyStrip g ≠ fp := by
        intro he
        exact hnt (Or.inl (by rw [h1]; exact congrArg some he))
      refine ⟨?_, hgne, fun he => hfp he.symm⟩
      rw [dictSetdefault_lookup_other _ _ _ _ (fun he => hgne he.symm)]
      exact hres
  | none =>
  cases h2 : reSearch matchBadFileAt line with
  | some g =>
      simp only []
      have hgne : pyStrip g.1 ≠ fp := by
        intro he
        exact hnt (Or.inr (Or.inl (by rw [h2]; exact congrArg some he)))
      refine ⟨?_, hcur, fun he => hfp he.symm⟩
      rw [dictInsert_lookup_other _ _ _ _ (fun he => hgne he.symm)]
      exact hres
  | none =>
  cases h3 : reSearch matchNoSopAt line with
  | some g =>
      simp only []
      have hgne : pyStrip g ≠ fp := by
        intro he
        exact hnt (Or.inr (Or.inr (Or.inl (by rw [h3]; exact congrArg some he))))
      refine ⟨?_, hgne, fun he => hfp he.symm⟩
      rw [dictInsert_lookup_other _ _ _ _ (fun he => hgne he.symm)]
      exact hres
  | none =>
  cases h4 : reSearch matchFailedFileAt line with
  | some g =>
      simp only []
      have hgne : pyStrip g ≠ fp := by
        intro he
        exact hnt (Or.inr (Or.inr (Or.inr (by rw [h4]; exact congrArg some he))))
      refine ⟨?_, hgne, hgne⟩
      rw [dictInsert_lookup_other _ _ _ _ (fun he => hgne he.symm)]
      exact hres
  | none =>
  cases h5 : reSearch matchFailedReasonAt line with
  | some g =>
      simp only []
      by_cases hp : ¬ st.pending_failed_file.isEmpty = true
      · rw [if_pos hp]
        refine ⟨?_, hcur, fun he => hfp he.symm⟩
        rw [dictInsert_lookup_other _ _ _ _ (fun he => hpend he.symm)]
        exact hres
      · rw [if_neg hp]
        exact hrsp st ⟨hres, hcur, hpend⟩
  | none => exact hrsp st ⟨hres, hcur, hpend⟩

theorem dcmtkParse_fold_untouched (fp : PyStr) (hfp : fp ≠ []) :
    ∀ (lines : List PyStr) (st : DcmtkParseState),
      dcmtkUntouched fp st → (∀ line ∈ lines, ¬ dcmtkTouches line fp) →
      dcmtkUntouched fp (lines.foldl dcmtkParseLine st) := by
  intro lines
  induction lines with
  | nil => intro st hst _; exact hst
  | cons line rest ih =>
      intro st hst hall
      rw [List.foldl_cons]
      exact ih _ (dcmtkParseLine_untouched fp line st hfp (hall line (by simp)) hst)
        (fun x hx => hall x (by simp [hx]))

theorem dcmtkFillDefaults_lookup_some {β : Type} (row : β) :
    ∀ (batch : List PyStr) (m : List (PyStr × β)) (fp : PyStr) (v : β),
      List.lookup fp m = some v →
      List.lookup fp (batch.foldl (fun m f => dictSetdefault m f row) m) = some v := by
  intro batch
  induction batch with
  | nil => intro m fp v h; exact h
  | cons f rest ih =>
      intro m fp v h
      rw [List.foldl_cons]
      exact ih _ fp v (dictSetdefault_lookup_some m f fp row v h)

theorem dcmtkFillDefaults_lookup_fill {β : Type} (row : β) :
    ∀ (batch : List PyStr) (m : List (PyStr × β)) (fp : PyStr),
      fp ∈ batch → List.lookup fp m = none →
      List.lookup fp (batch.foldl (fun m f => dictSetdefault m f row) m) = some row := by
  intro batch
  induction batch with
  | nil => intro m fp hmem; simp at hmem
  | cons f rest ih =>
      intro m fp hmem hnone
      rw [List.foldl_cons]
      by_cases hf : f = fp
      · subst hf
        have : List.lookup f (dictSetdefault m f row) = some row := by
          unfold dictSetdefault
          rw [if_neg (by simp [hnone]), List.lookup_append, hnone]
          simp [List.lookup_cons]
        exact dcmtkFillDefaults_lookup_some row rest _ f row this
      · have hmem2 : fp ∈ rest := by
          rcases List.mem_cons.mp hmem with he | he
          · exact absurd he.symm hf
          · exact he
        refine ih _ fp hmem2 ?_
        rw [dictSetdefault_lookup_other _ _ _ _ (fun he => hf he.symm)]
        exact hnone

/-- C5 (ToolT response classification): the shared Store-Response rule
classifies a detail containing `Success` as `SENT_OK` and any other
detail as `SEND_FAIL`, except that `Unknown Status: 0x110` on a file
whose basename uppercases to `DICOMDIR` gives
`UNSUPPORTED_DICOM_OBJECT`; when a Store-Response line arrives for the
current file (no earlier marker firing on that line), the parse result
row for that file carries exactly this classification and the stripped
response detail; and every batch file never name-captured by any output
line ends with `SENT_UNKNOWN` and detail
`parse_status=UNKNOWN;reason=no_match_in_output`. -/
theorem c5_dcmtk_response_classification :
    (∀ (det f : PyStr),
      (pyContains det (pyStr "Unknown Status: 0x110") = true →
          pyUpper (pyPathName f) = pyStr "DICOMDIR" →
          dcmtkRspStatus det f = pyStr "UNSUPPORTED_DICOM_OBJECT") ∧
      (¬ (pyContains det (pyStr "Unknown Status: 0x110") = true ∧
            pyUpper (pyPathName f) = pyStr "DICOMDIR") →
        (pyContains det (pyStr "Success") = true → dcmtkRspStatus det f = pyStr "SENT_OK") ∧
        (pyContains det (pyStr "Success") = false →
          dcmtkRspStatus det f = pyStr "SEND_FAIL"))) ∧
    (∀ (st : DcmtkParseState) (line d : PyStr),
      reSearch matchSendingFileAt line = none →
      reSearch matchBadFileAt line = none →
      reSearch matchNoSopAt line = none →
      reSearch matchFailedFileAt line = none →
      (reSearch matchFailedReasonAt line = none ∨ st.pending_failed_file = []) →
      reSearch matchStoreRspAt line = some d →
      st.current_file ≠ [] →
      List.lookup st.current_file (dcmtkParseLine st line).result =
        some ⟨dcmtkRspStatus (pyStrip d) st.current_file, pyStrip d⟩) ∧
    (∀ (lines batch : List PyStr) (fp : PyStr),
      fp ∈ batch → fp ≠ [] →
      (∀ line ∈ lines, ¬ dcmtkTouches line fp) →
      List.lookup fp (parse_send_output_dcmtk lines batch) = some dcmtkNoMatchRow) := by
  refine ⟨?_, ?_, ?_⟩
  · intro det f
    constructor
    · intro h110 hdir
      unfold dcmtkRspStatus
      rw [if_pos ⟨h110, hdir⟩]
    · intro hno
      constructor
      · intro hsuc
        unfold dcmtkRspStatus
        rw [if_neg hno, hsuc]
        simp
      · intro hsuc
        unfold dcmtkRspStatus
        rw [if_neg hno, hsuc]
        simp
  · intro st line d h1 h2 h3 h4 h5 hrsp hcur
    have hstep :
        List.lookup st.current_file (dcmtkRspCheck st line).result =
          some ⟨dcmtkRspStatus (pyStrip d) st.current_file, pyStrip d⟩ := by
      unfold dcmtkRspCheck
      rw [hrsp]
      simp only []
      rw [if_pos (by simp [List.isEmpty_iff, hcur])]
      exact dictInsert_lookup_self _ _ _
    unfold dcmtkParseLine
    rw [h1, h2, h3, h4]
    simp only []
    cases h5r : reSearch matchFailedReasonAt line with
    | some g =>
        rcases h5 with h5a | h5b
        · rw [h5a] at h5r; exact absurd h5r (by simp)
        · simp only []
          rw [if_neg (by simp [h5b])]
          exact hstep
    | none => exact hstep
  · intro lines batch fp hmem hfp hall
    unfold parse_send_output_dcmtk
    have hinv := dcmtkParse_fold_untouched fp hfp lines ⟨[], [], []⟩
      ⟨rfl, fun he => hfp he.symm, fun he => hfp he.symm⟩ hall
    exact dcmtkFillDefaults_lookup_fill dcmtkNoMatchRow batch _ fp hmem hinv.1

theorem c5_dcmtk_response_classification_witness :
    List.lookup (pyStr "a.dcm")
        (dcmtkParseLine ⟨[], pyStr "a.dcm", []⟩
          (pyStr "I: Received Store Response (Success)")).result =
      some ⟨pyStr "SENT_OK", pyStr "Success"⟩ := by
  have h := c5_dcmtk_response_classification.2.1 ⟨[], pyStr "a.dcm", []⟩
    (pyStr "I: Received Store Response (Success)") (pyStr "Success")
    (by decide) (by decide) (by decide) (by decide) (Or.inr rfl) (by decide) (by decide)
  simpa using h

/-! ## Claim C7: run-id suffix idempotency -/

/-- `dropWhile` is the identity when the head does not satisfy the
predicate. -/
theorem dropWhile_eq_self_of_head (p : Char → Bool) (l : PyStr)
    (h : ∀ c, l.head? = some c → p c = false) : List.dropWhile p l = l := by
  cases l with
  | nil => rfl
  | cons a t =>
      rw [List.dropWhile_cons, if_neg]
      simp [h a rfl]

/-- The head of a `dropWhile` result does not satisfy the predicate. -/
theorem head_dropWhile_false (p : Char → Bool) :
    ∀ (l : PyStr) (c : Char), (List.dropWhile p l).head? = some c → p c = false := by
  intro l
  induction l with
  | nil => intro c hc; exact absurd hc (by simp)
  | cons a t ih =>
      intro c hc
      rw [List.dropWhile_cons] at hc
      by_cases hpa : p a = true
      · rw [if_pos hpa] at hc; exact ih c hc
      · rw [if_neg hpa] at hc
        simp at hc
        rw [← hc]
        simpa using hpa

/-- A nonempty initial segment determines the head. -/
theorem head?_eq_of_pre {s t : PyStr} (h : s <+: t) (c : Char) (hc : s.head? = some c) :
    t.head? = some c := by
  obtain ⟨r, rfl⟩ := h
  cases s with
  | nil => exact absurd hc (by simp)
  | cons a u => simpa using hc

/-- Reversing, dropping a prefix, and reversing back yields an initial
segment of the original list. -/
theorem reverse_dropWhile_rev_pre (p : Char → Bool) (l : PyStr) :
    (l.reverse.dropWhile p).reverse <+: l := by
  have h := List.dropWhile_suffix (p := p) (l := l.reverse)
  have h2 := List.reverse_prefix.mpr h
  rwa [List.reverse_reverse] at h2

/-- `str.strip()` is the identity on strings with no whitespace at
either end. -/
theorem pyStrip_eq_self (s : PyStr)
    (hh : ∀ c, s.head? = some c → isPyWs c = false)
    (hl : ∀ c, s.getLast? = some c → isPyWs c = false) : pyStrip s = s := by
  unfold pyStrip
  rw [dropWhile_eq_self_of_head isPyWs s hh]
  rw [dropWhile_eq_self_of_head isPyWs s.reverse
    (fun c hc => hl c (by rwa [List.head?_reverse] at hc))]
  exact List.reverse_reverse s

/-- The head of `str.strip()` output is never whitespace. -/
theorem pyStrip_head_not_ws (x : PyStr) (c : Char) (hc : (pyStrip x).head? = some c) :
    isPyWs c = false := by
  have hpre : pyStrip x <+: x.dropWhile isPyWs :=
    reverse_dropWhile_rev_pre isPyWs (x.dropWhile isPyWs)
  exact head_dropWhile_false isPyWs x c (head?_eq_of_pre hpre c hc)

/-- The last character of `str.strip()` output is never whitespace. -/
theorem pyStrip_getLast_not_ws (x : PyStr) (c : Char) (hc : (pyStrip x).getLast? = some c) :
    isPyWs c = false := by
  unfold pyStrip at hc
  rw [List.getLast?_reverse] at hc
  exact head_dropWhile_false isPyWs _ c hc

/-- `str.strip()` is idempotent. -/
theorem pyStrip_idem (x : PyStr) : pyStrip (pyStrip x) = pyStrip x :=
  pyStrip_eq_self _ (fun c => pyStrip_head_not_ws x c) (fun c => pyStrip_getLast_not_ws x c)

/-- `str.rstrip("_")` yields an initial segment of its input. -/
theorem pyRstripUnderscore_pre (l : PyStr) : pyRstripUnderscore l <+: l :=
  reverse_dropWhile_rev_pre (· = '_') l

/-- One stripping pass yields an initial segment of its input. -/
theorem stripRunSuffixOnce_pre {b b2 : PyStr} (h : stripRunSuffixOnce b = some b2) :
    b2 <+: b := by
  unfold stripRunSuffixOnce at h
  cases hf : knownRunSuffixes.find? (fun suffix => pyEndsWith (pyLower b) suffix) with
  | none => rw [hf] at h; exact absurd h (by simp)
  | some s =>
      rw [hf] at h
      injection h with h2
      rw [← h2]
      exact (pyRstripUnderscore_pre _).trans ( List.take_prefix _ _)

/-- The stripping loop yields an initial segment of its input. -/
theorem stripRunSuffixLoopF_pre : ∀ (fuel : Nat) (b : PyStr),
    stripRunSuffixLoopF fuel b <+: b := by
  intro fuel
  induction fuel with
  | zero => intro b; exact List.prefix_rfl
  | succ n ih =>
      intro b
      rw [stripRunSuffixLoopF]
      cases hs : stripRunSuffixOnce b with
      | none => exact List.prefix_rfl
      | some b2 => exact (ih b2).trans (stripRunSuffixOnce_pre hs)

/-- With fuel at least the length of the input, the stripping loop
reaches a fixpoint of the single pass. -/
theorem stripRunSuffixLoopF_fix : ∀ (fuel : Nat) (b : PyStr), b.length ≤ fuel →
    stripRunSuffixOnce (stripRunSuffixLoopF fuel b) = none := by
  intro fuel
  induction fuel with
  | zero =>
      intro b hb
      have hnil : b = [] := List.length_eq_zero.mp (by omega)
      subst hnil
      decide
  | succ n ih =>
      intro b hb
      rw [stripRunSuffixLoopF]
      cases hs : stripRunSuffixOnce b with
      | none => exact hs
      | some b2 =>
          have hlt := stripRunSuffixOnce_length_lt hs
          exact ih b2 (by omega)

/-- The loop is the identity on fixpoints of the single pass. -/
theorem stripRunSuffixLoopF_of_none (fuel : Nat) {b : PyStr}
    (h : stripRunSuffixOnce b = none) : stripRunSuffixLoopF fuel b = b := by
  cases fuel with
  | zero => rfl
  | succ n => rw [stripRunSuffixLoopF, h]

/-- A loop whose first pass lands on a fixpoint returns that fixpoint. -/
theorem stripRunSuffixLoopF_of_step {b b2 : PyStr} (fuel : Nat) (h1 : fuel ≠ 0)
    (hstep : stripRunSuffixOnce b = some b2) (hfix : stripRunSuffixOnce b2 = none) :
    stripRunSuffixLoopF fuel b = b2 := by
  cases fuel with
  | zero => exact absurd rfl h1
  | succ n =>
      rw [stripRunSuffixLoopF, hstep]
      exact stripRunSuffixLoopF_of_none n hfix

/-- A string always ends with its appended suffix. -/
theorem pyEndsWith_append_self (L usfx : PyStr) : pyEndsWith (L ++ usfx) usfx = true := by
  unfold pyEndsWith
  simp only [decide_eq_true_eq]
  exact List.suffix_append L usfx

/-- `L ++ usfx` does not end with a candidate at least as long as `usfx`
of which `usfx` itself is not a suffix. -/
theorem pyEndsWith_append_ne (L usfx cand : PyStr) (hlen : usfx.length ≤ cand.length)
    (hnot : ¬ usfx <:+ cand) : ¬ pyEndsWith (L ++ usfx) cand = true := by
  unfold pyEndsWith
  simp only [decide_eq_true_eq]
  intro hc
  exact hnot ( List.suffix_of_suffix_length_le ( List.suffix_append L usfx) hc hlen)

/-- One stripping pass on `base ++ usfx`, for any of the four known
suffixes: it finds exactly `usfx` and yields `rstrip("_")` of `base`. -/
theorem stripRunSuffixOnce_append (base usfx : PyStr)
    (husfx : usfx = pyStr "_dcm4che_folders" ∨ usfx = pyStr "_dcm4che_files" ∨
      usfx = pyStr "_dcm4che" ∨ usfx = pyStr "_dcmtk") :
    stripRunSuffixOnce (base ++ usfx) = some (pyRstripUnderscore base) := by
  have hlow : pyLower (base ++ usfx) = pyLower base ++ usfx := by
    unfold pyLower
    rw [List.map_append]
    rcases husfx with h | h | h | h <;> subst h <;> rfl
  have htake : (base ++ usfx).length - usfx.length = base.length := by
    simp [List.length_append]
  unfold stripRunSuffixOnce knownRunSuffixes
  rw [hlow]
  rcases husfx with h | h | h | h <;> subst h
  · rw [ List.find?_cons_of_pos _ (pyEndsWith_append_self _ _)]
    simp only []
    rw [htake, List.take_left]
  · rw [ List.find?_cons_of_neg _ (pyEndsWith_append_ne _ _ _ (by decide) (by decide))]
    rw [ List.find?_cons_of_pos _ (pyEndsWith_append_self _ _)]
    simp only []
    rw [htake, List.take_left]
  · rw [ List.find?_cons_of_neg _ (pyEndsWith_append_ne _ _ _ (by decide) (by decide))]
    rw [ List.find?_cons_of_neg _ (pyEndsWith_append_ne _ _ _ (by decide) (by decide))]
    rw [ List.find?_cons_of_pos _ (pyEndsWith_append_self _ _)]
    simp only []
    rw [htake, List.take_left]
  · rw [ List.find?_cons_of_neg _ (pyEndsWith_append_ne _ _ _ (by decide) (by decide))]
    rw [ List.find?_cons_of_neg _ (pyEndsWith_append_ne _ _ _ (by decide) (by decide))]
    rw [ List.find?_cons_of_neg _ (pyEndsWith_append_ne _ _ _ (by decide) (by decide))]
    rw [ List.find?_cons_of_pos _ (pyEndsWith_append_self _ _)]
    simp only []
    rw [htake, List.take_left]

/-- A fixpoint of the stripping pass ends with none of the known
suffixes. -/
theorem stripOnce_none_not_endswith {b : PyStr} (h : stripRunSuffixOnce b = none)
    {usfx : PyStr} (hmem : usfx ∈ knownRunSuffixes) :
    ¬ pyEndsWith (pyLower b) usfx = true := by
  intro hc
  unfold stripRunSuffixOnce at h
  cases hf : knownRunSuffixes.find? (fun suffix => pyEndsWith (pyLower b) suffix) with
  | some s => rw [hf] at h; exact absurd h (by simp)
  | none =>
      have hx := List.find?_eq_none.mp hf usfx hmem
      exact hx hc

/-- The run suffix of the two known toolkits is one of the three
lower-case driver slugs. -/
theorem toolkit_run_suffix_cases (toolkit mode : PyStr)
    (ht : toolkit = pyStr "dcm4che" ∨ toolkit = pyStr "dcmtk") :
    toolkit_run_suffix toolkit mode = pyStr "dcm4che_files" ∨
    toolkit_run_suffix toolkit mode = pyStr "dcm4che_folders" ∨
    toolkit_run_suffix toolkit mode = pyStr "dcmtk" := by
  rcases ht with h | h <;> subst h
  · unfold toolkit_run_suffix
    simp only []
    rw [if_pos (by decide : pyLower (pyStrip (pyStr "dcm4che")) = pyStr "dcm4che")]
    by_cases hm : normalize_dcm4che_send_mode mode = pyStr "MANIFEST_FILES"
    · rw [if_pos hm]; exact Or.inl rfl
    · rw [if_neg hm]; exact Or.inr (Or.inl rfl)
  · unfold toolkit_run_suffix
    simp only []
    rw [if_neg (by decide : ¬ pyLower (pyStrip (pyStr "dcmtk")) = pyStr "dcm4che")]
    exact Or.inr (Or.inr rfl)

/-- C7 counterexample: with the dcmtk toolkit, normalizing the run id
`"run_"` twice gives `"run_dcmtk"`, but normalizing it once gives
`"run__dcmtk"` - the first pass appends `_dcmtk` to the untouched base
`run_`, while the second pass strips `_dcmtk` and the now-exposed
trailing underscore before re-appending, so the claimed idempotency
contract fails on bases with trailing underscores. -/
theorem c7_counterexample :
    with_toolkit_suffix (pyStr "dcmtk") [] (pyStr "run_") = pyStr "run__dcmtk" ∧
    with_toolkit_suffix (pyStr "dcmtk") []
        (with_toolkit_suffix (pyStr "dcmtk") [] (pyStr "run_")) = pyStr "run_dcmtk" ∧
    with_toolkit_suffix (pyStr "dcmtk") []
        (with_toolkit_suffix (pyStr "dcmtk") [] (pyStr "run_")) ≠
      with_toolkit_suffix (pyStr "dcmtk") [] (pyStr "run_") := by decide

/-- Stripping the known suffixes from `B ++ usfx` recovers `B`, when `B`
is an underscore-free-tail fixpoint of the single pass and the
concatenation has no surrounding whitespace. -/
theorem strip_known_run_suffixes_append_usfx (B usfx : PyStr)
    (husfx : usfx = pyStr "_dcm4che_folders" ∨ usfx = pyStr "_dcm4che_files" ∨
      usfx = pyStr "_dcm4che" ∨ usfx = pyStr "_dcmtk")
    (hstrip : pyStrip (B ++ usfx) = B ++ usfx)
    (hrs : pyRstripUnderscore B = B)
    (hfix : stripRunSuffixOnce B = none) :
    strip_known_run_suffixes (B ++ usfx) = B := by
  have hulen : usfx.length ≠ 0 := by
    rcases husfx with h | h | h | h <;> rw [h] <;> decide
  have hne2 : ¬ (B ++ usfx).isEmpty = true := by
    intro hc
    exact hulen (by rw [(List.append_eq_nil.mp (List.isEmpty_iff.mp hc)).2]; rfl)
  unfold strip_known_run_suffixes stripRunSuffixLoop
  simp only []
  rw [hstrip]
  rw [if_neg hne2]
  refine stripRunSuffixLoopF_of_step _ ?_ ?_ hfix
  · rw [List.length_append]
    omega
  · rw [stripRunSuffixOnce_append _ _ husfx, hrs]

/-- C7 amended: for the known toolkits, run-id suffixing is idempotent
whenever the suffix-stripped base of the run id carries no trailing
underscore (`rstrip("_")` fixes it); the counterexample shows the
hypothesis is necessary. -/
theorem c7_run_id_suffix_idempotent (toolkit mode x : PyStr)
    (ht : toolkit = pyStr "dcm4che" ∨ toolkit = pyStr "dcmtk")
    (hund : pyRstripUnderscore (strip_known_run_suffixes (pyStrip x)) =
      strip_known_run_suffixes (pyStrip x)) :
    with_toolkit_suffix toolkit mode (with_toolkit_suffix toolkit mode x) =
      with_toolkit_suffix toolkit mode x := by
  have hsfx := toolkit_run_suffix_cases toolkit mode ht
  by_cases hraw : pyStrip x = []
  · have h1 : with_toolkit_suffix toolkit mode x = [] := by
      unfold with_toolkit_suffix
      simp only []
      rw [hraw]
      rfl
    rw [h1]
    unfold with_toolkit_suffix
    simp only []
    rfl
  · -- the four-suffix form of the appended suffix
    have husfx : ('_' :: toolkit_run_suffix toolkit mode) = pyStr "_dcm4che_folders" ∨
        ('_' :: toolkit_run_suffix toolkit mode) = pyStr "_dcm4che_files" ∨
        ('_' :: toolkit_run_suffix toolkit mode) = pyStr "_dcm4che" ∨
        ('_' :: toolkit_run_suffix toolkit mode) = pyStr "_dcmtk" := by
      rcases hsfx with h | h | h <;> rw [h]
      · exact Or.inr (Or.inl rfl)
      · exact Or.inl rfl
      · exact Or.inr (Or.inr (Or.inr rfl))
    have hmem : ('_' :: toolkit_run_suffix toolkit mode) ∈ knownRunSuffixes := by
      rcases husfx with h | h | h | h <;> rw [h] <;> decide
    -- the stripped base and its fixpoint property
    have hB : strip_known_run_suffixes (pyStrip x) =
        stripRunSuffixLoopF (pyStrip x).length (pyStrip x) := by
      unfold strip_known_run_suffixes stripRunSuffixLoop
      simp only []
      rw [pyStrip_idem]
      rw [if_neg (fun hc => hraw (List.isEmpty_iff.mp hc))]
    have hfixB : stripRunSuffixOnce (strip_known_run_suffixes (pyStrip x)) = none := by
      rw [hB]
      exact stripRunSuffixLoopF_fix _ _ le_rfl
    have hendsne : ¬ pyEndsWith (pyLower (strip_known_run_suffixes (pyStrip x)))
        ('_' :: toolkit_run_suffix toolkit mode) = true :=
      stripOnce_none_not_endswith hfixB hmem
    -- the first normalization appends the suffix
    have h1 : with_toolkit_suffix toolkit mode x =
        strip_known_run_suffixes (pyStrip x) ++ '_' :: toolkit_run_suffix toolkit mode := by
      unfold with_toolkit_suffix
      simp only []
      rw [if_neg (fun hc => hraw (List.isEmpty_iff.mp hc))]
      rw [if_neg hendsne]
    -- stripping is the identity on the first result
    have hpreB : strip_known_run_suffixes (pyStrip x) <+: pyStrip x := by
      rw [hB]
      exact stripRunSuffixLoopF_pre _ _
    have hh : ∀ c, (strip_known_run_suffixes (pyStrip x) ++
        '_' :: toolkit_run_suffix toolkit mode).head? = some c → isPyWs c = false := by
      intro c hc
      cases hBnil : strip_known_run_suffixes (pyStrip x) with
      | nil =>
          rw [hBnil] at hc
          simp at hc
          rw [← hc]
          decide
      | cons a t =>
          rw [hBnil] at hc
          simp at hc
          have hcB : (strip_known_run_suffixes (pyStrip x)).head? = some c := by
            rw [hBnil, ← hc]
            rfl
          exact pyStrip_head_not_ws x c (head?_eq_of_pre hpreB c hcB)
    have hlast : ∀ c, (strip_known_run_suffixes (pyStrip x) ++
        '_' :: toolkit_run_suffix toolkit mode).getLast? = some c → isPyWs c = false := by
      intro c hc
      rw [List.getLast?_append_cons] at hc
      rcases hsfx with h | h | h <;> rw [h] at hc
      · have e : ('_' :: pyStr "dcm4che_files").getLast? = some 's' := by decide
        rw [e] at hc
        injection hc with h2
        rw [← h2]
        decide
      · have e : ('_' :: pyStr "dcm4che_folders").getLast? = some 's' := by decide
        rw [e] at hc
        injection hc with h2
        rw [← h2]
        decide
      · have e : ('_' :: pyStr "dcmtk").getLast? = some 'k' := by decide
        rw [e] at hc
        injection hc with h2
        rw [← h2]
        decide
    have hstrip2 : pyStrip (strip_known_run_suffixes (pyStrip x) ++
        '_' :: toolkit_run_suffix toolkit mode) =
        strip_known_run_suffixes (pyStrip x) ++ '_' :: toolkit_run_suffix toolkit mode :=
      pyStrip_eq_self _ hh hlast
    -- the second stripping recovers the same base
    have hne2 : ¬ (strip_known_run_suffixes (pyStrip x) ++
        '_' :: toolkit_run_suffix toolkit mode).isEmpty = true := by
      intro hc
      have := List.isEmpty_iff.mp hc
      exact absurd (List.append_eq_nil.mp this).2 (by simp)
    have hstep : stripRunSuffixOnce (strip_known_run_suffixes (pyStrip x) ++
        '_' :: toolkit_run_suffix toolkit mode) =
        some (strip_known_run_suffixes (pyStrip x)) := by
      rw [stripRunSuffixOnce_append _ _ husfx, hund]
    have hstrip3 : strip_known_run_suffixes (strip_known_run_suffixes (pyStrip x) ++
        '_' :: toolkit_run_suffix toolkit mode) = strip_known_run_suffixes (pyStrip x) :=
      strip_known_run_suffixes_append_usfx _ _ husfx hstrip2 hund hfixB
    -- the second normalization returns the first result unchanged
    rw [h1]
    unfold with_toolkit_suffix
    simp only []
    rw [hstrip2, if_neg hne2, hstrip3, if_neg hendsne]

theorem c7_run_id_suffix_idempotent_witness :
    with_toolkit_suffix (pyStr "dcmtk") []
        (with_toolkit_suffix (pyStr "dcmtk") [] (pyStr "study42")) =
      with_toolkit_suffix (pyStr "dcmtk") [] (pyStr "study42") :=
  c7_run_id_suffix_idempotent (pyStr "dcmtk") [] (pyStr "study42")
    (Or.inr rfl) (by decide)
